import Mathlib

/-!
Verification development for the PHP array-shapes extension
(`zend_compile_array_shapes.{c,h}`, `zend_execute_array_shapes.c`,
`php_reflection_array_shapes.c`).

The C sources are shallowly embedded: the tagged `zend_type` value becomes the
inductive `ZType`, PHP hashtables become ordered association lists, machine
integers become `Nat` with explicit `% 2^w` where the C uses fixed-width
arithmetic, and the fallible compiler returns `Except`.  Functions keep the
names they have in the source.  Constants whose numeric values come from the
host engine headers (`zend_types.h` is not part of this repository) are
modelled from the repository header's documented layout: basic type bits live
in bits 0..15, the extension's own tag bits in bits 24/25.
-/

set_option autoImplicit false

namespace ArrayShapes

/-! ## Type-mask constants

Bits 1..15 are the basic `MAY_BE_*` kind bits (modelled from the spec's data
model, which lists null, true, false, bool, int, float, string, array, object,
callable, iterable, void, never, mixed as primitive-kind mask bits; the host
header is not in the repository).  Bits 24/25 are the repository's own
`ZEND_TYPE_ARRAY_OF_BIT` / `ZEND_TYPE_ARRAY_SHAPE_BIT` exactly as defined in
`zend_compile_array_shapes.h`. -/

def MAY_BE_NULL : Nat := 2
def MAY_BE_FALSE : Nat := 4
def MAY_BE_TRUE : Nat := 8
def MAY_BE_LONG : Nat := 16
def MAY_BE_DOUBLE : Nat := 32
def MAY_BE_STRING : Nat := 64
def MAY_BE_ARRAY : Nat := 128
def MAY_BE_OBJECT : Nat := 256
def MAY_BE_RESOURCE : Nat := 512
def MAY_BE_BOOL : Nat := 1024
def MAY_BE_CALLABLE : Nat := 2048
def MAY_BE_ITERABLE : Nat := 4096
def MAY_BE_VOID : Nat := 8192
def MAY_BE_NEVER : Nat := 16384
def MAY_BE_MIXED : Nat := 32768

/-- Union flag bit of a composite type list (modelled host `_ZEND_TYPE_UNION_BIT`). -/
def ZEND_TYPE_UNION_BIT : Nat := 65536

/-- Intersection flag bit of a composite type list (modelled host
`_ZEND_TYPE_INTERSECTION_BIT`). -/
def ZEND_TYPE_INTERSECTION_BIT : Nat := 131072

/-- List presence bit (modelled host `_ZEND_TYPE_LIST_BIT`). -/
def ZEND_TYPE_LIST_BIT : Nat := 262144

/-- Class-name presence bit (modelled host `_ZEND_TYPE_NAME_BIT`). -/
def ZEND_TYPE_NAME_BIT : Nat := 1048576

/-- `ZEND_TYPE_ARRAY_OF_BIT = 1u << 24` from `zend_compile_array_shapes.h`. -/
def ZEND_TYPE_ARRAY_OF_BIT : Nat := 16777216

/-- `ZEND_TYPE_ARRAY_SHAPE_BIT = 1u << 25` from `zend_compile_array_shapes.h`. -/
def ZEND_TYPE_ARRAY_SHAPE_BIT : Nat := 33554432

/-- `ZEND_TYPE_EXTENDED_ARRAY_MASK` from `zend_compile_array_shapes.h`. -/
def ZEND_TYPE_EXTENDED_ARRAY_MASK : Nat :=
  ZEND_TYPE_ARRAY_OF_BIT ||| ZEND_TYPE_ARRAY_SHAPE_BIT

/-- `ZEND_TYPE_PURE_MASK`: the basic `MAY_BE_*` bits of a mask, with all flag
bits stripped (basic bits live in bits 0..15 per the repository header). -/
def ZEND_TYPE_PURE_MASK (m : Nat) : Nat := m &&& 65535

/-! ## The Type Value

`zend_type` is a `type_mask` plus a pointer discriminated by the mask's flag
bits (descriptor, class name, or type list).  The mask-bit-plus-cast pair of
the C is embedded as the constructor tag; every constructor still carries the
full `type_mask` word, because the hash, the equivalence quick-check and the
stringifier read it as an integer.

A shape element (`zend_shape_element`) is `key × is_optional × type`, where
`ShapeKey` fuses the C's `key`/`key_num`/`is_string_key` fields. -/

/-- A shape-element key: interned string key, or integer (`zend_ulong`) key. -/
inductive ShapeKey : Type where
  | sk (key : String)
  | ik (key_num : Nat)
deriving DecidableEq, Repr

inductive ZType : Type where
  /-- A plain built-in type: just a `type_mask`. -/
  | prim (type_mask : Nat)
  /-- A class/interface type: `_ZEND_TYPE_NAME_BIT` plus the stored name. -/
  | cls (type_mask : Nat) (name : String)
  /-- A union/intersection list; the union-vs-intersection flag is in the mask. -/
  | tlist (type_mask : Nat) (types : List ZType)
  /-- `array<T>`: the `zend_array_of` descriptor
  ({element type, refcount, depth}) behind `ZEND_TYPE_ARRAY_OF_BIT`. -/
  | arrayOf (type_mask : Nat) (element_type : ZType) (refcount : Nat) (depth : Nat)
  /-- `array{...}`: the `zend_array_shape` descriptor
  ({elements, refcount, shape hash}) behind `ZEND_TYPE_ARRAY_SHAPE_BIT`. -/
  | shape (type_mask : Nat) (elements : List (ShapeKey × Bool × ZType))
      (refcount : Nat) (shape_hash : Nat)
deriving Repr

/-- A `zend_shape_element`: key, `is_optional` flag, element type. -/
abbrev ShapeElem : Type := ShapeKey × Bool × ZType

/-- The `type_mask` word of a `zend_type`. -/
def ZType.type_mask : ZType → Nat
  | .prim m => m
  | .cls m _ => m
  | .tlist m _ => m
  | .arrayOf m _ _ _ => m
  | .shape m _ _ _ => m

/-- `ZEND_TYPE_HAS_NAME`: the stored class name, when present. -/
def ZType.class_name : ZType → Option String
  | .cls _ n => some n
  | _ => none

/-- Whether the type is `array<T>` or `array\x7b...\x7d` (the two extended
array forms of this extension). -/
def ZType.isExtendedArray : ZType → Bool
  | .arrayOf _ _ _ _ => true
  | .shape _ _ _ _ => true
  | _ => false

/-- OR extra bits into the `type_mask` word (used by the nullable compiler
case, `type.type_mask |= MAY_BE_NULL`). -/
def ZType.orMask : ZType → Nat → ZType
  | .prim m, x => .prim (m ||| x)
  | .cls m n, x => .cls (m ||| x) n
  | .tlist m ts, x => .tlist (m ||| x) ts
  | .arrayOf m e rc d, x => .arrayOf (m ||| x) e rc d
  | .shape m els rc h, x => .shape (m ||| x) els rc h

/-! ## Runtime values

A `zval`, as far as the validator inspects one: its kind tag, container
entries for arrays, the class set for objects, and one level of reference
indirection.  An object is modelled (from spec §4.2, the host class table and
`instanceof_function` are not in the repository) by the set of class and
interface names it satisfies plus whether it implements traversal. -/

/-- A PHP array key: string key or integer key (distinct key spaces, as in the
`zend_hash_find` / `zend_hash_index_find` APIs). -/
inductive AKey : Type where
  | astr (s : String)
  | aint (n : Nat)
deriving DecidableEq, Repr

inductive ZVal : Type where
  | vnull
  | vfalse
  | vtrue
  | vlong (n : Int)
  | vdouble
  | vstr (s : String)
  /-- An array value: its hashtable, in native (insertion) order. -/
  | varr (entries : List (AKey × ZVal))
  /-- An object: the class/interface names it is an instance of, and whether
  it implements `Traversable`. -/
  | vobj (classes : List String) (traversable : Bool)
  | vres
  /-- A by-reference binding wrapping a value. -/
  | vref (inner : ZVal)
deriving Repr

/-- `Z_ISREF` / `Z_REFVAL`: strip exactly one level of reference indirection. -/
def derefOnce : ZVal → ZVal
  | .vref v => v
  | v => v

/-- Whether the raw (undereferenced) value kind is `IS_ARRAY`. -/
def ZVal.isArr : ZVal → Bool
  | .varr _ => true
  | _ => false

/-- Whether the value is a reference wrapper. -/
def ZVal.isRef : ZVal → Bool
  | .vref _ => true
  | _ => false

/-- `zend_hash_find`: look up a string key in a hashtable. -/
def zend_hash_find : List (AKey × ZVal) → String → Option ZVal
  | [], _ => none
  | (.astr s, v) :: rest, key => if s = key then some v else zend_hash_find rest key
  | (.aint _, _) :: rest, key => zend_hash_find rest key

/-- `zend_hash_index_find`: look up an integer key in a hashtable. -/
def zend_hash_index_find : List (AKey × ZVal) → Nat → Option ZVal
  | [], _ => none
  | (.aint n, v) :: rest, key => if n = key then some v else zend_hash_index_find rest key
  | (.astr _, _) :: rest, key => zend_hash_index_find rest key

/-- Dispatch a shape-element key lookup: `zend_hash_find` for string keys,
`zend_hash_index_find` for integer keys (the `elem->is_string_key` branch of
`zend_validate_array_shape`). -/
def shapeElemKeyFind (ht : List (AKey × ZVal)) : ShapeKey → Option ZVal
  | .sk s => zend_hash_find ht s
  | .ik n => zend_hash_index_find ht n

/-! ## Shape hash -/

/-- One DJB2 accumulation step of `zend_compute_shape_hash`:
`hash = ((hash << 5) + hash) ^ x` in `uint32_t` arithmetic. -/
def hashStep (h x : Nat) : Nat :=
  ((((h <<< 5) + h) % 4294967296) ^^^ (x % 4294967296)) % 4294967296

/-- Modelled from the spec: `ZSTR_H`, the host engine's interned-string hash
(`zend_string.h` is not part of the repository).  The exact value is
irrelevant to every claim; what matters is that it is a pure function of the
key text.  Modelled as the engine's DJBX33A accumulation over the bytes with
the top `zend_ulong` bit forced. -/
def zend_string_hash (s : String) : Nat :=
  (s.toList.foldl (fun h c => (h * 33 + c.toNat) % 18446744073709551616) 5381)
    ||| 9223372036854775808

/-- The key hash mixed into the shape hash: the string hash for string keys,
the raw integer key otherwise (`zend_compute_shape_hash`). -/
def shapeKeyHash : ShapeKey → Nat
  | .sk s => zend_string_hash s
  | .ik n => n

/-- `zend_compute_shape_hash`: DJB2-style accumulation over the element count,
then per element (in declaration order) the key identity hash, the element
`type_mask`, and the optional flag. -/
def zend_compute_shape_hash (elements : List ShapeElem) : Nat :=
  elements.foldl
    (fun h el =>
      hashStep (hashStep (hashStep h (shapeKeyHash el.1)) el.2.2.type_mask)
        (if el.2.1 then 1 else 0))
    (hashStep 5381 elements.length)

/-! ## AST and the AST-to-type compiler -/

/-- A shape-element key literal in the AST (`zend_ast_get_zval(key_ast)`):
a string literal, an integer literal, or any other literal kind (which is a
compile-time error). -/
inductive KeyLit : Type where
  | kstr (s : String)
  | kint (i : Int)
  | kother
deriving DecidableEq, Repr

/-- The type-expression AST consumed by the compiler (node kinds per spec §6
and the `switch` of `zend_compile_type_internal`).  A shape element carries
its key literal, the optional flag (`attr & 1`), and the child type node. -/
inductive ZAst : Type where
  | type_array_of (elem : ZAst)
  | type_array_shape (elems : List (KeyLit × Bool × ZAst))
  /-- `ZEND_AST_TYPE`: a built-in type, the code stored in `ast->attr`. -/
  | type_code (code : Nat)
  /-- `ZEND_AST_CLASS_TYPE` / `ZEND_AST_NAME`. -/
  | class_type (name : String)
  | nullable (inner : ZAst)
  | type_union (members : List ZAst)
  | type_intersection (members : List ZAst)
deriving Repr

/-- `E_COMPILE_ERROR` conditions: `zend_error_noreturn` aborts compilation of
the declaration, embedded as an `Except` error. -/
inductive CompileError : Type where
  /-- "Shape key must be a string or integer". -/
  | invalid_shape_key
  /-- "Invalid type AST node kind" (also stands in for the `ZEND_ASSERT`ed
  preconditions of the two specialized entry points). -/
  | invalid_ast_kind
deriving DecidableEq, Repr

/-- Modelled from the spec: `ZEND_TYPE_INIT_CODE` maps a built-in type code to
its mask bit (the host macro is not in the repository; primitive/built-in
nodes get "a mask from a literal code" per spec §4.1). -/
def zend_type_init_code_mask (code : Nat) : Nat := 1 <<< code

/-- Cast `zend_long` to `zend_ulong` (the shape-key cast
`(zend_ulong)Z_LVAL_P(key_zval)`). -/
def int_to_zend_ulong (i : Int) : Nat := (i % 18446744073709551616).toNat

mutual

/-- `zend_compile_array_of_type`: compile the element type recursively,
allocate a `zend_array_of` descriptor (refcount 1), compute the depth
(`uint8_t`, hence mod 256), and tag with
`ZEND_TYPE_ARRAY_OF_BIT | MAY_BE_ARRAY`. -/
def zend_compile_array_of_type : ZAst → Except CompileError ZType
  | .type_array_of elem_ast => do
    let element_type ← zend_compile_type_internal elem_ast true
    let depth : Nat :=
      match element_type with
      | .arrayOf _ _ _ inner_depth => (inner_depth + 1) % 256
      | _ => 1
    pure (.arrayOf (ZEND_TYPE_ARRAY_OF_BIT ||| MAY_BE_ARRAY) element_type 1 depth)
  | _ => throw .invalid_ast_kind

/-- `zend_compile_array_shape_type`: compile each shape element in order,
compute the shape hash once afterwards, allocate the descriptor (refcount 1)
and tag with `ZEND_TYPE_ARRAY_SHAPE_BIT | MAY_BE_ARRAY`. -/
def zend_compile_array_shape_type : ZAst → Except CompileError ZType
  | .type_array_shape elems => do
    let compiled ← compileShapeElems elems
    pure (.shape (ZEND_TYPE_ARRAY_SHAPE_BIT ||| MAY_BE_ARRAY) compiled 1
      (zend_compute_shape_hash compiled))
  | _ => throw .invalid_ast_kind

/-- The per-element loop of `zend_compile_array_shape_type`: extract the key
(string → intern, integer → raw `zend_ulong`, anything else →
`E_COMPILE_ERROR`), read the optional flag, compile the element type. -/
def compileShapeElems : List (KeyLit × Bool × ZAst) → Except CompileError (List ShapeElem)
  | [] => pure []
  | (k, opt, tast) :: rest => do
    let key ← match k with
      | .kstr s => pure (ShapeKey.sk s)
      | .kint i => pure (ShapeKey.ik (int_to_zend_ulong i))
      | .kother => throw CompileError.invalid_shape_key
    let ty ← zend_compile_type_internal tast true
    let tail ← compileShapeElems rest
    pure ((key, opt, ty) :: tail)

/-- `zend_compile_type_internal`: the recursive AST-to-type dispatch. -/
def zend_compile_type_internal : ZAst → Bool → Except CompileError ZType
  | .type_array_of e, _ => zend_compile_array_of_type (.type_array_of e)
  | .type_array_shape es, _ => zend_compile_array_shape_type (.type_array_shape es)
  | .type_code code, _ => pure (.prim (zend_type_init_code_mask code))
  | .class_type name, _ => pure (.cls ZEND_TYPE_NAME_BIT name)
  | .nullable inner, persistent => do
    let t ← zend_compile_type_internal inner persistent
    pure (t.orMask MAY_BE_NULL)
  | .type_union ms, persistent => do
    let ts ← compileTypeList ms persistent
    pure (.tlist (ZEND_TYPE_LIST_BIT ||| ZEND_TYPE_UNION_BIT) ts)
  | .type_intersection ms, persistent => do
    let ts ← compileTypeList ms persistent
    pure (.tlist (ZEND_TYPE_LIST_BIT ||| ZEND_TYPE_INTERSECTION_BIT) ts)

/-- The member loop of the union/intersection cases. -/
def compileTypeList : List ZAst → Bool → Except CompileError (List ZType)
  | [], _ => pure []
  | m :: ms, persistent => do
    let t ← zend_compile_type_internal m persistent
    let ts ← compileTypeList ms persistent
    pure (t :: ts)

end

/-! ## The structural validator -/

/-- Case-insensitive name comparison (`zend_string_equals_ci`; modelled from
the spec, the host string helpers are not in the repository). -/
def ci_eq (a b : String) : Bool := a.toLower == b.toLower

/-- Modelled from the spec: the class branch of `zend_check_type_extended`
(`zend_lookup_class` + `instanceof_function` are host-engine functions not in
this repository).  Per spec §4.2 a named-class requirement matches when the
value is an object whose class or implemented interfaces include that name. -/
def zend_class_matches (name : String) (classes : List String) : Bool :=
  classes.any (ci_eq name)

/-- The built-in `switch (Z_TYPE_P(val))` at the end of
`zend_check_type_extended`, over the pure type mask. -/
def zend_check_primitive (type_mask : Nat) : ZVal → Bool
  | .vnull => type_mask &&& MAY_BE_NULL != 0
  | .vfalse => type_mask &&& (MAY_BE_FALSE ||| MAY_BE_BOOL) != 0
  | .vtrue => type_mask &&& (MAY_BE_TRUE ||| MAY_BE_BOOL) != 0
  | .vlong _ => type_mask &&& MAY_BE_LONG != 0
  | .vdouble => type_mask &&& MAY_BE_DOUBLE != 0
  | .vstr _ => type_mask &&& MAY_BE_STRING != 0
  | .varr _ => type_mask &&& MAY_BE_ARRAY != 0
  | .vobj _ traversable =>
    if type_mask &&& MAY_BE_OBJECT != 0 then true
    else if type_mask &&& MAY_BE_ITERABLE != 0 && traversable then true
    else false
  | .vres => type_mask &&& MAY_BE_RESOURCE != 0
  | .vref _ => false

/-- The out-parameter block of `zend_validate_array_shape`:
`{ok, *missing_key, *missing_key_num, *is_string_key, *bad_value,
*failed_element}`.  All outputs start at their initialized values
(`NULL`/`0`/`false`) and are only set on a failure path, as in the C. -/
structure ShapeResult : Type where
  ok : Bool
  missing_key : Option String
  missing_key_num : Nat
  is_string_key : Bool
  bad_value : Option ZVal
  failed_element : Option ShapeElem
deriving Repr

/-- The all-initialized (success) output block. -/
def shapePass : ShapeResult := ⟨true, none, 0, false, none, none⟩

/-- `*missing_key` for a missing element: the interned key for string keys,
`NULL` otherwise. -/
def missingStrOf : ShapeKey → Option String
  | .sk s => some s
  | .ik _ => none

/-- `*missing_key_num` for a missing element: the integer key for integer
keys, `0` otherwise. -/
def missingNumOf : ShapeKey → Nat
  | .sk _ => 0
  | .ik n => n

/-- `elem->is_string_key`. -/
def keyIsString : ShapeKey → Bool
  | .sk _ => true
  | .ik _ => false

mutual

/-- `zend_check_type_extended`: dereference one indirection level, then
dispatch on the type: `array<T>` and shape types recurse into the specialized
validators, lists check all/any members, class names use lazy class matching,
and plain masks use the kind switch. -/
def zend_check_type_extended (t : ZType) (val : ZVal) : Bool :=
  let v := derefOnce val
  match t with
  | .arrayOf _ element_type _ _ =>
    match v with
    | .varr ht => (zend_validate_array_of element_type ht).1
    | _ => false
  | .shape _ elements _ _ =>
    match v with
    | .varr ht => (zend_validate_array_shape elements ht).ok
    | _ => false
  | .tlist type_mask types =>
    if type_mask &&& ZEND_TYPE_INTERSECTION_BIT != 0 then checkTypeAll types v
    else checkTypeAny types v
  | .cls _ name =>
    match v with
    | .vobj classes _ => zend_class_matches name classes
    | _ => false
  | .prim type_mask => zend_check_primitive (ZEND_TYPE_PURE_MASK type_mask) v
termination_by (sizeOf t, sizeOf val)

/-- The intersection loop of `zend_check_type_extended`: all members must
match (short-circuit failure). -/
def checkTypeAll : List ZType → ZVal → Bool
  | [], _ => true
  | t :: ts, v => zend_check_type_extended t v && checkTypeAll ts v
termination_by ts v => (sizeOf ts, sizeOf v)

/-- The union loop of `zend_check_type_extended`: any member may match
(short-circuit success). -/
def checkTypeAny : List ZType → ZVal → Bool
  | [], _ => false
  | t :: ts, v => zend_check_type_extended t v || checkTypeAny ts v
termination_by ts v => (sizeOf ts, sizeOf v)

/-- `zend_validate_array_of` over the element type of the `zend_array_of`
descriptor and the hashtable entries in native order.  Returns
`(result, *bad_element)`.  An empty container passes; a nested array-of or
shape element type requires the raw kind `IS_ARRAY` (no dereference) and
recurses; any other element type goes through `zend_check_type_extended`;
iteration stops at the first failure. -/
def zend_validate_array_of : ZType → List (AKey × ZVal) → Bool × Option ZVal
  | _, [] => (true, none)
  | element_type, (_, val) :: rest =>
    match element_type with
    | .arrayOf m inner rc d =>
      match val with
      | .varr iht =>
        match zend_validate_array_of inner iht with
        | (true, _) => zend_validate_array_of (.arrayOf m inner rc d) rest
        | (false, b) => (false, b)
      | _ => (false, some val)
    | .shape m inner_elems rc h =>
      match val with
      | .varr iht =>
        let r := zend_validate_array_shape inner_elems iht
        if r.ok then zend_validate_array_of (.shape m inner_elems rc h) rest
        else (false, some (r.bad_value.getD val))
      | _ => (false, some val)
    | tother =>
      if zend_check_type_extended tother val then
        zend_validate_array_of tother rest
      else (false, some val)
termination_by t l => (sizeOf t, sizeOf l)

/-- `zend_validate_array_shape` over the descriptor's element sequence (in
declaration order) and the hashtable.  For each element: look the key up; an
absent optional key is skipped; an absent required key fails with the key
identity; a present value is checked against the element type (raw-kind check
plus recursion for nested array-of/shape, `zend_check_type_extended`
otherwise); the loop stops at the first failure, and inner shape failures
propagate their outputs (`bad_value`/`failed_element` defaulting to the
containing value/element as in the C). -/
def zend_validate_array_shape : List ShapeElem → List (AKey × ZVal) → ShapeResult
  | [], _ => shapePass
  | (key, is_optional, ty) :: rest, ht =>
    match shapeElemKeyFind ht key with
    | none =>
      if is_optional then zend_validate_array_shape rest ht
      else ⟨false, missingStrOf key, missingNumOf key, keyIsString key, none,
        some (key, is_optional, ty)⟩
    | some val =>
      match ty with
      | .arrayOf _ inner _ _ =>
        match val with
        | .varr iht =>
          match zend_validate_array_of inner iht with
          | (true, _) => zend_validate_array_shape rest ht
          | (false, b) =>
            ⟨false, none, 0, false, some (b.getD val), some (key, is_optional, ty)⟩
        | _ => ⟨false, none, 0, false, some val, some (key, is_optional, ty)⟩
      | .shape _ inner_elems _ _ =>
        match val with
        | .varr iht =>
          let r := zend_validate_array_shape inner_elems iht
          if r.ok then zend_validate_array_shape rest ht
          else ⟨false, r.missing_key, r.missing_key_num, r.is_string_key,
            some (r.bad_value.getD val),
            some (r.failed_element.getD (key, is_optional, ty))⟩
        | _ => ⟨false, none, 0, false, some val, some (key, is_optional, ty)⟩
      | tother =>
        if zend_check_type_extended tother val then zend_validate_array_shape rest ht
        else ⟨false, none, 0, false, some val, some (key, is_optional, tother)⟩
termination_by els ht => (sizeOf els, sizeOf ht)

end

/-! ## Structural equivalence -/

/-- The key comparison of `zend_types_are_equivalent`: `is_string_key` must
agree, string keys compare with `zend_string_equals` (exact), integer keys
compare numerically. -/
def shape_keys_equal : ShapeKey → ShapeKey → Bool
  | .sk a, .sk b => a == b
  | .ik a, .ik b => a == b
  | _, _ => false

mutual

/-- `zend_types_are_equivalent`: quick rejection on the extended-array tag
bits of the two masks; recursive element comparison for two array-of types;
hash, count and pairwise element comparison for two shapes; otherwise exact
pure-mask equality plus case-insensitive comparison of class names present on
both sides (a name on only one side is never equivalent). -/
def zend_types_are_equivalent (a b : ZType) : Bool :=
  if (a.type_mask &&& ZEND_TYPE_EXTENDED_ARRAY_MASK)
      != (b.type_mask &&& ZEND_TYPE_EXTENDED_ARRAY_MASK) then false
  else
    match a, b with
    | .arrayOf _ ea _ _, .arrayOf _ eb _ _ => zend_types_are_equivalent ea eb
    | .arrayOf _ _ _ _, _ => false
    | _, .arrayOf _ _ _ _ => false
    | .shape _ elsa _ ha, .shape _ elsb _ hb =>
      if ha != hb then false
      else if elsa.length != elsb.length then false
      else shape_elements_equivalent elsa elsb
    | .shape _ _ _ _, _ => false
    | _, .shape _ _ _ _ => false
    | a, b =>
      if ZEND_TYPE_PURE_MASK a.type_mask != ZEND_TYPE_PURE_MASK b.type_mask then false
      else
        match a.class_name, b.class_name with
        | some na, some nb => ci_eq na nb
        | none, none => true
        | _, _ => false
termination_by (sizeOf a, 0)

/-- The pairwise element loop of `zend_types_are_equivalent`: in declaration
order, key kind and identity, optional flag, and recursively equivalent
element types. -/
def shape_elements_equivalent : List ShapeElem → List ShapeElem → Bool
  | [], [] => true
  | (ka, oa, ta) :: ra, (kb, ob, tb) :: rb =>
    shape_keys_equal ka kb && (oa == ob) && zend_types_are_equivalent ta tb
      && shape_elements_equivalent ra rb
  | _, _ => false
termination_by la _ => (sizeOf la, 1)

end

/-! ## Stringifier -/

/-- `(zend_long)key_num`: reinterpret the `zend_ulong` key as a signed 64-bit
value for `smart_str_append_long`. -/
def zend_ulong_to_long (n : Nat) : Int :=
  if n < 9223372036854775808 then (n : Int) else (n : Int) - 18446744073709551616

/-- How a shape key is printed: the key text for string keys, the signed
decimal for integer keys. -/
def shapeKeyString : ShapeKey → String
  | .sk s => s
  | .ik n => toString (zend_ulong_to_long n)

/-- The fixed keyword table of the plain-mask branch of
`zend_type_to_string_extended`, in the order the `if` chain appends them. -/
def maskKeywords : List (Nat × String) :=
  [(MAY_BE_BOOL, "bool"), (MAY_BE_LONG, "int"), (MAY_BE_DOUBLE, "float"),
   (MAY_BE_STRING, "string"), (MAY_BE_ARRAY, "array"), (MAY_BE_OBJECT, "object"),
   (MAY_BE_CALLABLE, "callable"), (MAY_BE_ITERABLE, "iterable"),
   (MAY_BE_VOID, "void"), (MAY_BE_NEVER, "never"), (MAY_BE_NULL, "null"),
   (MAY_BE_FALSE, "false"), (MAY_BE_TRUE, "true"), (MAY_BE_MIXED, "mixed")]

/-- The keywords the `if` chain emits for a mask: one fixed keyword per set
bit, in table order, except that `array` is suppressed when the type carries
an extended-array tag bit (the `!ZEND_TYPE_HAS_EXTENDED_ARRAY` check). -/
def selectedKeywords (m : Nat) (has_ext : Bool) : List String :=
  (maskKeywords.filter (fun p => m &&& p.1 != 0 && (p.1 != MAY_BE_ARRAY || !has_ext))).map
    Prod.snd

/-- The plain-mask branch of `zend_type_to_string_extended`: when the mask
contains null plus exactly one other bit, a leading `?` replaces the null
keyword; otherwise every set bit is rendered as its fixed keyword, joined by
`|` via the first-flag chain; an empty rendering gives `unknown`. -/
def renderPlainMask (m0 : Nat) (has_ext : Bool) : String :=
  let non_null := m0 &&& (4294967295 - MAY_BE_NULL)
  let emit := fun (m : Nat) =>
    let kws := selectedKeywords m has_ext
    if kws.isEmpty then "unknown" else String.intercalate "|" kws
  if m0 &&& MAY_BE_NULL != 0 && non_null != 0 && non_null &&& (non_null - 1) == 0 then
    "?" ++ emit non_null
  else emit m0

mutual

/-- `zend_type_to_string_extended`: `array<` + element + `>` for array-of;
`array\x7b` + comma-joined `key[?]: type` elements in declaration order +
`\x7d` for shapes; members joined by `|`/`&` for lists; the stored name for
class types; the keyword rendering of the pure mask otherwise. -/
def zend_type_to_string_extended : ZType → String
  | .arrayOf _ element_type _ _ =>
    "array<" ++ zend_type_to_string_extended element_type ++ ">"
  | .shape _ elements _ _ =>
    "array\x7b" ++ stringifyShapeElems elements true ++ "\x7d"
  | .tlist type_mask types =>
    stringifyTypeList types
      (if type_mask &&& ZEND_TYPE_INTERSECTION_BIT != 0 then "&" else "|") true
  | .cls _ name => name
  | .prim type_mask =>
    renderPlainMask (ZEND_TYPE_PURE_MASK type_mask)
      (type_mask &&& ZEND_TYPE_EXTENDED_ARRAY_MASK != 0)
termination_by t => (sizeOf t, 0)

/-- The shape-element print loop: `", "` before every element but the first,
then the key, a `?` for optional elements, `": "`, and the element type. -/
def stringifyShapeElems : List ShapeElem → Bool → String
  | [], _ => ""
  | (key, is_optional, ty) :: rest, first =>
    (if first then "" else ", ") ++ shapeKeyString key ++
      (if is_optional then "?" else "") ++ ": " ++
      zend_type_to_string_extended ty ++ stringifyShapeElems rest false
termination_by els _ => (sizeOf els, 1)

/-- The union/intersection member print loop: the separator before every
member but the first. -/
def stringifyTypeList : List ZType → String → Bool → String
  | [], _, _ => ""
  | t :: ts, sep, first =>
    (if first then "" else sep) ++ zend_type_to_string_extended t ++
      stringifyTypeList ts sep false
termination_by ts _ _ => (sizeOf ts, 1)

end

/-! ## Release lifecycle

`zend_type_release_extended` and the descriptor release helpers from the
header are embedded as a trace of release events: the decrement (with the
refcount value after it), the descriptor frees, the interned-key releases and
the class-name releases, in the order the C performs them.  This makes the
order and the conditions of the recursive member release inspectable. -/

inductive RelEvent : Type where
  /-- `--array_of->refcount` on the descriptor holding this element type. -/
  | decref_array_of (element_type : ZType) (new_refcount : Nat)
  /-- `pefree` of the `zend_array_of` descriptor holding this element type. -/
  | free_array_of (element_type : ZType)
  /-- `--shape->refcount` on the descriptor holding these elements. -/
  | decref_shape (elements : List ShapeElem) (new_refcount : Nat)
  /-- `pefree` of the `zend_array_shape` descriptor holding these elements. -/
  | free_shape (elements : List ShapeElem)
  /-- `zend_string_release` of an interned shape key. -/
  | release_key (key : String)
  /-- `pefree` of a `zend_type_list`. -/
  | free_list
  /-- `zend_string_release` of a stored class name. -/
  | release_name (name : String)
deriving Repr

/-- Whether an event frees one of the two extended descriptors. -/
def isFreeEvent : RelEvent → Bool
  | .free_array_of _ => true
  | .free_shape _ => true
  | _ => false

/-- `zend_array_of_release` (header): decrement; free only at refcount zero.
`new_rc` is the refcount value after the decrement. -/
def zend_array_of_release_events (element_type : ZType) (new_rc : Nat) : List RelEvent :=
  if new_rc == 0 then
    [.decref_array_of element_type 0, .free_array_of element_type]
  else [.decref_array_of element_type new_rc]

/-- `zend_array_shape_release` (header): decrement; at refcount zero release
every interned string key and free the descriptor. -/
def zend_array_shape_release_events (elements : List ShapeElem) (new_rc : Nat) :
    List RelEvent :=
  if new_rc == 0 then
    .decref_shape elements 0 ::
      ((elements.filterMap (fun el => missingStrOf el.1)).map RelEvent.release_key
        ++ [.free_shape elements])
  else [.decref_shape elements new_rc]

mutual

/-- `zend_type_release_extended`: for an array-of type, first recursively
release the element type, then `zend_array_of_release`; for a shape, first
recursively release every element type, then `zend_array_shape_release`; for
a list, release every member then free the list; for a class type, release
the stored name. -/
def zend_type_release_extended : ZType → List RelEvent
  | .arrayOf _ element_type refcount _ =>
    zend_type_release_extended element_type
      ++ zend_array_of_release_events element_type (refcount - 1)
  | .shape _ elements refcount _ =>
    releaseShapeElemTypes elements
      ++ zend_array_shape_release_events elements (refcount - 1)
  | .tlist _ types => releaseListTypes types ++ [.free_list]
  | .cls _ name => [.release_name name]
  | .prim _ => []
termination_by t => sizeOf t

/-- The element-type release loop inside the shape branch of
`zend_type_release_extended`. -/
def releaseShapeElemTypes : List ShapeElem → List RelEvent
  | [] => []
  | (_, _, ty) :: rest => zend_type_release_extended ty ++ releaseShapeElemTypes rest
termination_by els => sizeOf els

/-- The member release loop inside the list branch of
`zend_type_release_extended`. -/
def releaseListTypes : List ZType → List RelEvent
  | [] => []
  | t :: ts => zend_type_release_extended t ++ releaseListTypes ts
termination_by ts => sizeOf ts

end

/-! ## Verification facade -/

/-- `zend_zval_type_name` (modelled from the host engine): the runtime kind
name of a value, dereferencing a reference wrapper. -/
def zend_zval_type_name (v : ZVal) : String :=
  match derefOnce v with
  | .vnull => "null"
  | .vfalse => "bool"
  | .vtrue => "bool"
  | .vlong _ => "int"
  | .vdouble => "float"
  | .vstr _ => "string"
  | .varr _ => "array"
  | .vobj _ _ => "object"
  | .vres => "resource"
  | .vref _ => "reference"

/-- The structured content of one `zend_type_error` call in the verification
facade (the exact message text is out of the spec's scope; each constructor
carries the stringified type and/or key identity and actual-kind fields the
corresponding format string interpolates). -/
inductive Diag : Type where
  /-- "must be of type X, K given/returned": the whole declared type
  stringified plus the actual kind. -/
  | whole_type (expected : String) (actual : String)
  /-- "must be of type array<E>, array containing K given": the declared
  element type stringified plus the failing element's kind. -/
  | array_of_element (element_type_str : String) (actual : String)
  /-- "missing required key 'k'". -/
  | missing_str_key (key : String)
  /-- "missing required key n". -/
  | missing_int_key (key_num : Nat)
  /-- "key 'k' must be of type X, K given". -/
  | wrong_type_str_key (key : String) (expected : String) (actual : String)
  /-- "key n must be of type X, K given". -/
  | wrong_type_int_key (key_num : Nat) (expected : String) (actual : String)
  /-- "does not match type X" (the generic fallback branch). -/
  | no_match (expected : String)
  /-- "Return value must be of type void, K returned". -/
  | void_return (actual : String)
  /-- "never-returning function must not return". -/
  | never_return
deriving DecidableEq, Repr

/-- The shape-failure diagnostic selection shared by
`zend_verify_return_type_extended` and `zend_verify_arg_type_extended`:
a missing-key error is recognized as `failed_element` set with `bad_value`
`NULL`; a wrong-type error as both set; anything else falls back to the
generic message. -/
def shapeFailureDiag (declared : ZType) (r : ShapeResult) : Diag :=
  if r.failed_element.isSome && r.bad_value.isNone then
    if r.is_string_key then .missing_str_key (r.missing_key.getD "")
    else .missing_int_key r.missing_key_num
  else
    match r.bad_value, r.failed_element with
    | some bv, some (key, _, fty) =>
      match key with
      | .sk s =>
        .wrong_type_str_key s (zend_type_to_string_extended fty) (zend_zval_type_name bv)
      | .ik n =>
        .wrong_type_int_key n (zend_type_to_string_extended fty) (zend_zval_type_name bv)
    | _, _ => .no_match (zend_type_to_string_extended declared)

/-- The shared declared-type dispatch of the two verification facades, after
the void/never special cases: the array-of and shape branches check the raw
kind, run the specialized validator and build the category-specific
diagnostic; every other type goes through `zend_check_type_extended` and
reports the whole stringified type on failure.  Returns the verification
result and the list of raised type errors. -/
def verifyTypeDispatch (declared : ZType) (v : ZVal) : Bool × List Diag :=
  match declared with
  | .arrayOf _ element_type _ _ =>
    match v with
    | .varr ht =>
      match zend_validate_array_of element_type ht with
      | (true, _) => (true, [])
      | (false, b) =>
        (false, [.array_of_element (zend_type_to_string_extended element_type)
          (match b with
           | some bv => zend_zval_type_name bv
           | none => "invalid value")])
    | _ =>
      (false, [.whole_type (zend_type_to_string_extended declared) (zend_zval_type_name v)])
  | .shape _ elements _ _ =>
    match v with
    | .varr ht =>
      let r := zend_validate_array_shape elements ht
      if r.ok then (true, [])
      else (false, [shapeFailureDiag declared r])
    | _ =>
      (false, [.whole_type (zend_type_to_string_extended declared) (zend_zval_type_name v)])
  | _ =>
    if zend_check_type_extended declared v then (true, [])
    else
      (false, [.whole_type (zend_type_to_string_extended declared) (zend_zval_type_name v)])

/-- `zend_verify_return_type_extended`, from the point where the declared
return type has been fetched (the `arg_info[-1]` plumbing and the call-site
context strings are engine plumbing outside the spec's scope): the void and
never special cases, then the shared declared-type dispatch. -/
def zend_verify_return_type_extended (return_type : ZType) (retval : ZVal) :
    Bool × List Diag :=
  if return_type.type_mask &&& MAY_BE_VOID != 0 then
    match retval with
    | .vnull => (true, [])
    | _ => (false, [.void_return (zend_zval_type_name retval)])
  else if return_type.type_mask &&& MAY_BE_NEVER != 0 then (false, [.never_return])
  else verifyTypeDispatch return_type retval

/-- `zend_verify_arg_type_extended`, from the point where the argument's
declared type has been fetched (the `arg_info` lookup and variadic handling
are engine plumbing): identical branch structure to the return facade but
with no void/never cases. -/
def zend_verify_arg_type_extended (arg_type : ZType) (arg : ZVal) : Bool × List Diag :=
  verifyTypeDispatch arg_type arg

/-- `ReflectionArrayOfType::getDepth`: the stored depth of the array-of
descriptor, `0` when there is none. -/
def reflection_array_of_get_depth : ZType → Nat
  | .arrayOf _ _ _ d => d
  | _ => 0

/-! ## Derived per-element conditions

These definitions name the success condition and the failure record of one
loop iteration of the two container validators, so that the claims can be
stated about whole runs.  They read off the loop bodies above. -/

/-- The success condition the container loops apply to one value: nested
array-of and shape element types require the raw kind `IS_ARRAY` and recurse
into the specialized validator; every other element type goes through
`zend_check_type_extended`. -/
def elemTypeMatches (ty : ZType) (val : ZVal) : Bool :=
  match ty with
  | .arrayOf _ inner _ _ =>
    match val with
    | .varr iht => (zend_validate_array_of inner iht).1
    | _ => false
  | .shape _ els _ _ =>
    match val with
    | .varr iht => (zend_validate_array_shape els iht).ok
    | _ => false
  | _ => zend_check_type_extended ty val

/-- The success condition of one shape-element iteration: an absent key is
acceptable exactly when the element is optional; a present value must match
the element type. -/
def shapeElemOk (ht : List (AKey × ZVal)) (el : ShapeElem) : Bool :=
  match shapeElemKeyFind ht el.1 with
  | none => el.2.1
  | some val => elemTypeMatches el.2.2 val

/-- The `*bad_element` value `zend_validate_array_of` reports when a value
fails: the propagated inner pointer for a nested array-of, the inner
`bad_value` (defaulting to the value itself) for a nested shape, the value
itself otherwise. -/
def arrayOfBadElem (ty : ZType) (val : ZVal) : Option ZVal :=
  match ty with
  | .arrayOf _ inner _ _ =>
    match val with
    | .varr iht => (zend_validate_array_of inner iht).2
    | _ => some val
  | .shape _ els _ _ =>
    match val with
    | .varr iht => some ((zend_validate_array_shape els iht).bad_value.getD val)
    | _ => some val
  | _ => some val

/-- The output block `zend_validate_array_shape` produces when a given element
is the first failing one. -/
def shapeFailResult (ht : List (AKey × ZVal)) (el : ShapeElem) : ShapeResult :=
  match shapeElemKeyFind ht el.1 with
  | none =>
    ⟨false, missingStrOf el.1, missingNumOf el.1, keyIsString el.1, none, some el⟩
  | some val =>
    match el.2.2 with
    | .arrayOf _ inner _ _ =>
      match val with
      | .varr iht =>
        ⟨false, none, 0, false,
          some (((zend_validate_array_of inner iht).2).getD val), some el⟩
      | _ => ⟨false, none, 0, false, some val, some el⟩
    | .shape _ iels _ _ =>
      match val with
      | .varr iht =>
        let r := zend_validate_array_shape iels iht
        ⟨false, r.missing_key, r.missing_key_num, r.is_string_key,
          some (r.bad_value.getD val), some (r.failed_element.getD el)⟩
      | _ => ⟨false, none, 0, false, some val, some el⟩
    | _ => ⟨false, none, 0, false, some val, some el⟩

/-! ## Loop-step lemmas -/

theorem zend_validate_array_of_nil (t : ZType) : zend_validate_array_of t [] = (true, none) := by
  cases t <;> simp [zend_validate_array_of]

theorem zend_validate_array_of_cons (t : ZType) (k : AKey) (v : ZVal)
    (rest : List (AKey × ZVal)) :
    zend_validate_array_of t ((k, v) :: rest) =
      if elemTypeMatches t v then zend_validate_array_of t rest
      else (false, arrayOfBadElem t v) := by
  cases t <;> cases v <;>
    simp [zend_validate_array_of, elemTypeMatches, arrayOfBadElem]
  case arrayOf.varr m inner rc d iht =>
    rcases h : zend_validate_array_of inner iht with ⟨ok, b⟩
    cases ok <;> simp [h]

theorem zend_validate_array_shape_nil (ht : List (AKey × ZVal)) :
    zend_validate_array_shape [] ht = shapePass := by
  simp [zend_validate_array_shape]

theorem zend_validate_array_shape_cons (el : ShapeElem) (rest : List ShapeElem)
    (ht : List (AKey × ZVal)) :
    zend_validate_array_shape (el :: rest) ht =
      if shapeElemOk ht el then zend_validate_array_shape rest ht
      else shapeFailResult ht el := by
  rcases el with ⟨key, is_optional, ty⟩
  rcases hfind : shapeElemKeyFind ht key with _ | val
  · cases is_optional <;>
      simp [zend_validate_array_shape, shapeElemOk, shapeFailResult, hfind]
  · cases ty <;> cases val <;>
      simp [zend_validate_array_shape, shapeElemOk, shapeFailResult, hfind,
        elemTypeMatches]
    case arrayOf.varr m inner rc d iht =>
      rcases h : zend_validate_array_of inner iht with ⟨ok, b⟩
      cases ok <;> simp [h]

/-! ## Whole-run lemmas for the two container validators -/

theorem validate_of_all_iff (t : ZType) (ents : List (AKey × ZVal)) :
    (zend_validate_array_of t ents).1 = ents.all (fun e => elemTypeMatches t e.2) := by
  induction ents with
  | nil => simp [zend_validate_array_of_nil]
  | cons e rest ih =>
    rcases e with ⟨k, v⟩
    rw [zend_validate_array_of_cons]
    by_cases h : elemTypeMatches t v = true
    · simp [h, ih]
    · simp only [Bool.not_eq_true] at h
      simp [h]

theorem validate_of_first_fail (t : ZType) (pre : List (AKey × ZVal)) (k : AKey)
    (v : ZVal) (post : List (AKey × ZVal))
    (hpre : pre.all (fun e => elemTypeMatches t e.2) = true)
    (hv : elemTypeMatches t v = false) :
    zend_validate_array_of t (pre ++ (k, v) :: post) = (false, arrayOfBadElem t v) := by
  induction pre with
  | nil =>
    rw [List.nil_append, zend_validate_array_of_cons, hv]
    simp
  | cons e rest ih =>
    rcases e with ⟨k', v'⟩
    simp only [List.all_cons, Bool.and_eq_true] at hpre
    rw [List.cons_append, zend_validate_array_of_cons, hpre.1]
    simpa using ih hpre.2

theorem validate_shape_all_iff (els : List ShapeElem) (ht : List (AKey × ZVal)) :
    (zend_validate_array_shape els ht).ok = els.all (shapeElemOk ht) := by
  induction els with
  | nil => simp [zend_validate_array_shape_nil, shapePass]
  | cons el rest ih =>
    rw [zend_validate_array_shape_cons]
    by_cases h : shapeElemOk ht el = true
    · simp [h, ih]
    · simp only [Bool.not_eq_true] at h
      simp only [h, Bool.false_eq_true, if_false, List.all_cons, Bool.false_and]
      rcases el with ⟨key, opt, ty⟩
      unfold shapeFailResult
      rcases hf : shapeElemKeyFind ht key with _ | val
      · simp
      · cases ty <;> cases val <;> simp

theorem validate_shape_first_fail (pre : List ShapeElem) (el : ShapeElem)
    (post : List ShapeElem) (ht : List (AKey × ZVal))
    (hpre : pre.all (shapeElemOk ht) = true) (hel : shapeElemOk ht el = false) :
    zend_validate_array_shape (pre ++ el :: post) ht = shapeFailResult ht el := by
  induction pre with
  | nil => rw [List.nil_append, zend_validate_array_shape_cons, hel]; simp
  | cons e rest ih =>
    simp only [List.all_cons, Bool.and_eq_true] at hpre
    rw [List.cons_append, zend_validate_array_shape_cons, hpre.1]
    simpa using ih hpre.2

theorem shapeFailResult_failed_isSome (ht : List (AKey × ZVal)) (el : ShapeElem) :
    (shapeFailResult ht el).failed_element.isSome = true := by
  rcases el with ⟨key, opt, ty⟩
  unfold shapeFailResult
  rcases hf : shapeElemKeyFind ht key with _ | val
  · simp
  · cases ty <;> cases val <;> simp

theorem validate_shape_failed_isSome (els : List ShapeElem) (ht : List (AKey × ZVal))
    (h : (zend_validate_array_shape els ht).ok = false) :
    (zend_validate_array_shape els ht).failed_element.isSome = true := by
  induction els with
  | nil => simp [zend_validate_array_shape_nil, shapePass] at h
  | cons el rest ih =>
    rw [zend_validate_array_shape_cons] at h ⊢
    by_cases hok : shapeElemOk ht el = true
    · rw [hok] at h ⊢
      simp only [if_true] at h ⊢
      exact ih h
    · simp only [Bool.not_eq_true] at hok
      rw [hok] at h ⊢
      simp only [Bool.false_eq_true, if_false] at h ⊢
      exact shapeFailResult_failed_isSome ht el

/-- The shape validator reads the hashtable only through lookups at the
declared keys. -/
theorem validate_shape_lookup_congr (els : List ShapeElem) (ht ht' : List (AKey × ZVal))
    (h : ∀ el ∈ els, shapeElemKeyFind ht el.1 = shapeElemKeyFind ht' el.1) :
    zend_validate_array_shape els ht = zend_validate_array_shape els ht' := by
  induction els with
  | nil => rw [zend_validate_array_shape_nil, zend_validate_array_shape_nil]
  | cons el rest ih =>
    have hel : shapeElemKeyFind ht el.1 = shapeElemKeyFind ht' el.1 := h el (by simp)
    have hok : shapeElemOk ht el = shapeElemOk ht' el := by
      unfold shapeElemOk; rw [hel]
    have hfail : shapeFailResult ht el = shapeFailResult ht' el := by
      unfold shapeFailResult; rw [hel]
    rw [zend_validate_array_shape_cons, zend_validate_array_shape_cons, hok, hfail,
      ih (fun el' hm => h el' (by simp [hm]))]

theorem zend_hash_find_append (ht extra : List (AKey × ZVal)) (s : String)
    (h : zend_hash_find extra s = none) :
    zend_hash_find (ht ++ extra) s = zend_hash_find ht s := by
  induction ht with
  | nil => simpa [zend_hash_find] using h
  | cons e rest ih =>
    rcases e with ⟨k, v⟩
    cases k <;> simp only [List.cons_append, zend_hash_find] <;>
      first
        | exact ih
        | split <;> simp [ih]

theorem zend_hash_index_find_append (ht extra : List (AKey × ZVal)) (n : Nat)
    (h : zend_hash_index_find extra n = none) :
    zend_hash_index_find (ht ++ extra) n = zend_hash_index_find ht n := by
  induction ht with
  | nil => simpa [zend_hash_index_find] using h
  | cons e rest ih =>
    rcases e with ⟨k, v⟩
    cases k <;> simp only [List.cons_append, zend_hash_index_find] <;>
      first
        | exact ih
        | split <;> simp [ih]

theorem shapeElemKeyFind_append (ht extra : List (AKey × ZVal)) (key : ShapeKey)
    (h : shapeElemKeyFind extra key = none) :
    shapeElemKeyFind (ht ++ extra) key = shapeElemKeyFind ht key := by
  cases key with
  | sk s => exact zend_hash_find_append ht extra s h
  | ik n => exact zend_hash_index_find_append ht extra n h

/-! ## Demo data from the spec's validator table -/

/-- The shape `array\x7bid: int, name: string\x7d` (both required). -/
def demo_shape_req : List ShapeElem :=
  [(.sk "id", false, .prim MAY_BE_LONG), (.sk "name", false, .prim MAY_BE_STRING)]

/-- The shape `array\x7bid: int, name?: string\x7d`. -/
def demo_shape_opt : List ShapeElem :=
  [(.sk "id", false, .prim MAY_BE_LONG), (.sk "name", true, .prim MAY_BE_STRING)]

/-- Claim C1: for every shape and array value, the validator walks the
declared elements in declaration order, looks each key up, skips absent
optional keys, fails on an absent required key reporting exactly that key's
identity, checks a present key's value against the element's declared type,
is fully determined by the first failing element (later declared elements
never influence the output), and depends on the array only through lookups at
declared keys, so undeclared keys never cause a failure. -/
theorem claim_C1_shape_validator :
    (∀ els ht, (zend_validate_array_shape els ht).ok = els.all (shapeElemOk ht)) ∧
    (∀ ht key ty, shapeElemKeyFind ht key = none →
      shapeElemOk ht (key, true, ty) = true) ∧
    (∀ ht key opt ty v, shapeElemKeyFind ht key = some v →
      shapeElemOk ht (key, opt, ty) = elemTypeMatches ty v) ∧
    (∀ pre el post ht, pre.all (shapeElemOk ht) = true → shapeElemOk ht el = false →
      zend_validate_array_shape (pre ++ el :: post) ht = shapeFailResult ht el) ∧
    (∀ pre key ty post ht, pre.all (shapeElemOk ht) = true →
      shapeElemKeyFind ht key = none →
      zend_validate_array_shape (pre ++ (key, false, ty) :: post) ht =
        ⟨false, missingStrOf key, missingNumOf key, keyIsString key, none,
          some (key, false, ty)⟩) ∧
    (∀ els ht extra, (∀ el ∈ els, shapeElemKeyFind extra el.1 = none) →
      zend_validate_array_shape els (ht ++ extra) = zend_validate_array_shape els ht) ∧
    ((zend_validate_array_shape demo_shape_req
        [(.astr "id", .vlong 1), (.astr "name", .vstr "Bob"), (.astr "extra", .vtrue)]).ok
      = true) ∧
    (zend_validate_array_shape demo_shape_req [(.astr "id", .vlong 1)] =
      ⟨false, some "name", 0, true, none, some (.sk "name", false, .prim MAY_BE_STRING)⟩) ∧
    (zend_validate_array_shape demo_shape_opt [(.astr "id", .vstr "1")] =
      ⟨false, none, 0, false, some (.vstr "1"),
        some (.sk "id", false, .prim MAY_BE_LONG)⟩) := by
  refine ⟨validate_shape_all_iff, ?_, ?_, validate_shape_first_fail, ?_, ?_, ?_, ?_, ?_⟩
  · intro ht key ty h
    simp [shapeElemOk, h]
  · intro ht key opt ty v h
    simp [shapeElemOk, h]
  · intro pre key ty post ht hpre hfind
    rw [validate_shape_first_fail pre (key, false, ty) post ht hpre
      (by simp [shapeElemOk, hfind])]
    simp [shapeFailResult, hfind]
  · intro els ht extra hextra
    exact validate_shape_lookup_congr els (ht ++ extra) ht
      (fun el hm => shapeElemKeyFind_append ht extra el.1 (hextra el hm))
  · simp [demo_shape_req, zend_validate_array_shape, shapeElemKeyFind, zend_hash_find,
      elemTypeMatches, zend_check_type_extended, zend_check_primitive, derefOnce,
      ZEND_TYPE_PURE_MASK, MAY_BE_LONG, MAY_BE_STRING, shapePass]
  · simp [demo_shape_req, zend_validate_array_shape, shapeElemKeyFind, zend_hash_find,
      elemTypeMatches, zend_check_type_extended, zend_check_primitive, derefOnce,
      ZEND_TYPE_PURE_MASK, MAY_BE_LONG, MAY_BE_STRING, missingStrOf, missingNumOf,
      keyIsString]
  · simp [demo_shape_opt, zend_validate_array_shape, shapeElemKeyFind, zend_hash_find,
      elemTypeMatches, zend_check_type_extended, zend_check_primitive, derefOnce,
      ZEND_TYPE_PURE_MASK, MAY_BE_LONG, MAY_BE_STRING]
    intro h
    exact absurd (by decide) h

/-- Witness for C1: the first-failure clause applied at a concrete shape and
array: in `array\x7bid: int, name?: string\x7d` against `\x7b"id": "1"\x7d`,
the element `id` fails and the output block is its failure record. -/
theorem claim_C1_shape_validator_witness :
    zend_validate_array_shape ([] ++ (.sk "id", false, .prim MAY_BE_LONG) ::
        [(.sk "name", true, .prim MAY_BE_STRING)]) [(.astr "id", .vstr "1")] =
      shapeFailResult [(.astr "id", .vstr "1")] (.sk "id", false, .prim MAY_BE_LONG) :=
  claim_C1_shape_validator.2.2.2.1 [] (.sk "id", false, .prim MAY_BE_LONG)
    [(.sk "name", true, .prim MAY_BE_STRING)] [(.astr "id", .vstr "1")]
    (by simp)
    (by simp [shapeElemOk, shapeElemKeyFind, zend_hash_find, elemTypeMatches,
      zend_check_type_extended, zend_check_primitive, derefOnce, ZEND_TYPE_PURE_MASK,
      MAY_BE_LONG]
        decide)

/-- Claim C2: for every `array<T>` element type and array value, an empty
array passes; the result is Pass exactly when every element (in native order)
matches the element type, where nested array-of/shape element types recurse
into the specialized validators and all others use the general checker; the
run is fully determined by the first failing element, which is the reported
`bad_element` (the value itself for scalar/class element types); and
`[1, "x", 3]` against `array<int>` fails reporting the string element. -/
theorem claim_C2_array_of_validator :
    (∀ t, zend_validate_array_of t [] = (true, none)) ∧
    (∀ t ents, (zend_validate_array_of t ents).1 =
      ents.all (fun e => elemTypeMatches t e.2)) ∧
    (∀ ty v, ty.isExtendedArray = false →
      elemTypeMatches ty v = zend_check_type_extended ty v) ∧
    (∀ t pre k v post, pre.all (fun e => elemTypeMatches t e.2) = true →
      elemTypeMatches t v = false →
      zend_validate_array_of t (pre ++ (k, v) :: post) = (false, arrayOfBadElem t v)) ∧
    (∀ t v, t.isExtendedArray = false → arrayOfBadElem t v = some v) ∧
    (zend_validate_array_of (.prim MAY_BE_LONG)
        [(.aint 0, .vlong 1), (.aint 1, .vstr "x"), (.aint 2, .vlong 3)] =
      (false, some (.vstr "x"))) := by
  refine ⟨zend_validate_array_of_nil, validate_of_all_iff, ?_, validate_of_first_fail,
    ?_, ?_⟩
  · intro ty v h
    cases ty <;> simp_all [elemTypeMatches, ZType.isExtendedArray]
  · intro t v h
    cases t <;> simp_all [arrayOfBadElem, ZType.isExtendedArray]
  · simp [zend_validate_array_of, elemTypeMatches, zend_check_type_extended,
      zend_check_primitive, derefOnce, ZEND_TYPE_PURE_MASK, MAY_BE_LONG]
    decide

/-- Witness for C2: the first-failure clause applied at `array<int>` against
`[1, "x", 3]`: the prefix `[1]` passes, `"x"` fails, and the result reports
`"x"` whatever follows. -/
theorem claim_C2_array_of_validator_witness :
    zend_validate_array_of (.prim MAY_BE_LONG)
        ([(.aint 0, .vlong 1)] ++ (.aint 1, .vstr "x") :: [(.aint 2, .vlong 3)]) =
      (false, arrayOfBadElem (.prim MAY_BE_LONG) (.vstr "x")) :=
  claim_C2_array_of_validator.2.2.2.1 (.prim MAY_BE_LONG) [(.aint 0, .vlong 1)]
    (.aint 1) (.vstr "x") [(.aint 2, .vlong 3)]
    (by simp [elemTypeMatches, zend_check_type_extended, zend_check_primitive,
      derefOnce, ZEND_TYPE_PURE_MASK, MAY_BE_LONG])
    (by simp [elemTypeMatches, zend_check_type_extended, zend_check_primitive,
      derefOnce, ZEND_TYPE_PURE_MASK, MAY_BE_LONG]
        decide)

/-! ## Claim C6: reference dereferencing -/

/-- A one-element integer array, used to exhibit the reference behaviour. -/
def c6_inner_ht : List (AKey × ZVal) := [(.aint 0, .vlong 1)]

/-- The type `array<array<int>>`'s descriptor argument: element type
`array<int>`. -/
def c6_elem_type : ZType :=
  .arrayOf (ZEND_TYPE_ARRAY_OF_BIT ||| MAY_BE_ARRAY) (.prim MAY_BE_LONG) 1 1

/-- Counterexample to claim C6 as stated: at a nested array-of position the
validator inspects the raw kind without dereferencing, so a reference
wrapping `[1]` fails against element type `array<int>` although the wrapped
array itself passes — the declared array-of position does not validate the
reference "exactly as the value itself". -/
theorem claim_C6_counterexample :
    zend_validate_array_of c6_elem_type [(.aint 0, .vref (.varr c6_inner_ht))] =
      (false, some (.vref (.varr c6_inner_ht))) ∧
    zend_validate_array_of c6_elem_type [(.aint 0, .varr c6_inner_ht)] =
      (true, none) := by
  constructor
  · simp [c6_elem_type, zend_validate_array_of]
  · simp [c6_elem_type, c6_inner_ht, zend_validate_array_of, zend_check_type_extended,
      zend_check_primitive, derefOnce, ZEND_TYPE_PURE_MASK, MAY_BE_LONG]

/-- Claim C6 amended: one level of reference indirection is dereferenced
exactly where `zend_check_type_extended` runs — the general checker itself
(so scalar, class, union/intersection and whole-type checks see through a
reference, at the top level and at leaf positions inside containers) — while
the specialized nested array-of/shape branches of the container validators
and the facade's array-kind checks inspect the raw kind, so a reference
wrapping an array fails at those positions. -/
theorem claim_C6_amended :
    (∀ t v, v.isRef = false →
      zend_check_type_extended t (.vref v) = zend_check_type_extended t v) ∧
    (∀ ty v, ty.isExtendedArray = false → v.isRef = false →
      elemTypeMatches ty (.vref v) = elemTypeMatches ty v) ∧
    (∀ m inner rc d x, elemTypeMatches (.arrayOf m inner rc d) (.vref x) = false) ∧
    (∀ m els rc h x, elemTypeMatches (.shape m els rc h) (.vref x) = false) ∧
    (∀ t x, t.isExtendedArray = true → (verifyTypeDispatch t (.vref x)).1 = false) := by
  have hderef : ∀ v : ZVal, v.isRef = false → derefOnce (ZVal.vref v) = derefOnce v := by
    intro v h
    cases v <;> simp [derefOnce] <;> simp [ZVal.isRef] at h
  have hchk : ∀ t v, ZVal.isRef v = false →
      zend_check_type_extended t (.vref v) = zend_check_type_extended t v := by
    intro t v h
    cases t <;> simp only [zend_check_type_extended] <;> rw [hderef v h]
  refine ⟨hchk, ?_, ?_, ?_, ?_⟩
  · intro ty v hty h
    cases ty
    case arrayOf => simp [ZType.isExtendedArray] at hty
    case shape => simp [ZType.isExtendedArray] at hty
    all_goals simp only [elemTypeMatches]
    all_goals exact hchk _ v h
  · intro m inner rc d x
    simp [elemTypeMatches]
  · intro m els rc h x
    simp [elemTypeMatches]
  · intro t x ht
    cases t <;> simp [ZType.isExtendedArray, verifyTypeDispatch] at ht ⊢

/-- Witness for the amended C6: the general checker sees through a reference
around a scalar (`int` accepts `ref(1)`), and the nested array-of position
rejects a reference around an array. -/
theorem claim_C6_amended_witness :
    zend_check_type_extended (.prim MAY_BE_LONG) (.vref (.vlong 1)) =
      zend_check_type_extended (.prim MAY_BE_LONG) (.vlong 1) ∧
    elemTypeMatches c6_elem_type (.vref (.varr c6_inner_ht)) = false :=
  ⟨claim_C6_amended.1 (.prim MAY_BE_LONG) (.vlong 1) (by decide),
   claim_C6_amended.2.2.1 (ZEND_TYPE_ARRAY_OF_BIT ||| MAY_BE_ARRAY)
     (.prim MAY_BE_LONG) 1 1 (.varr c6_inner_ht)⟩

/-! ## Claim C9: duplicate shape keys -/

/-- The shape key a valid key literal compiles to (the `kother` default is
never reached on a successful compile). -/
def keyOfLit : KeyLit → ShapeKey
  | .kstr s => .sk s
  | .kint i => .ik (int_to_zend_ulong i)
  | .kother => .ik 0

/-- A shape with the key `k` declared twice, at types `int` and
`int|string`-mask. -/
def dup_shape : List ShapeElem :=
  [(.sk "k", false, .prim MAY_BE_LONG),
   (.sk "k", false, .prim (MAY_BE_LONG ||| MAY_BE_STRING))]

theorem compileShapeElems_keys (asts : List (KeyLit × Bool × ZAst))
    (els : List ShapeElem) (h : compileShapeElems asts = .ok els) :
    els.map (fun e => e.1) = asts.map (fun a => keyOfLit a.1) ∧
    els.map (fun e => e.2.1) = asts.map (fun a => a.2.1) := by
  induction asts generalizing els with
  | nil =>
    simp only [compileShapeElems, pure, Except.pure, Except.ok.injEq] at h
    subst h
    simp
  | cons a rest ih =>
    rcases a with ⟨k, opt, tast⟩
    cases k <;>
      simp only [compileShapeElems, pure, Except.pure, bind, Except.bind, throw,
        throwThe, MonadExceptOf.throw] at h
    case kstr s =>
      rcases h1 : zend_compile_type_internal tast true with e | ty <;> rw [h1] at h
      · cases h
      · rcases h2 : compileShapeElems rest with e | tail <;> rw [h2] at h
        · cases h
        · rcases Except.ok.inj h with rfl
          have := ih tail h2
          simp [keyOfLit, this.1, this.2]
    case kint i =>
      rcases h1 : zend_compile_type_internal tast true with e | ty <;> rw [h1] at h
      · cases h
      · rcases h2 : compileShapeElems rest with e | tail <;> rw [h2] at h
        · cases h
        · rcases Except.ok.inj h with rfl
          have := ih tail h2
          simp [keyOfLit, this.1, this.2]
    case kother => cases h

/-- Claim C9: the compiler keeps every occurrence of a duplicated key as its
own shape element (keys and optional flags preserved in order), and a passing
validation run checks every occurrence independently against the same looked
up entry, so a duplicated key must satisfy every declared type — a value
satisfying only the last occurrence fails. -/
theorem claim_C9_duplicate_keys :
    (∀ asts els, compileShapeElems asts = .ok els →
      els.map (fun e => e.1) = asts.map (fun a => keyOfLit a.1) ∧
      els.map (fun e => e.2.1) = asts.map (fun a => a.2.1)) ∧
    (∀ els ht, (zend_validate_array_shape els ht).ok = true →
      ∀ el ∈ els, ∀ v, shapeElemKeyFind ht el.1 = some v →
        elemTypeMatches el.2.2 v = true) ∧
    (∃ h, zend_compile_array_shape_type
        (.type_array_shape [(.kstr "k", false, .type_code 4), (.kstr "k", false, .type_code 4)]) =
      .ok (.shape (ZEND_TYPE_ARRAY_SHAPE_BIT ||| MAY_BE_ARRAY)
        [(.sk "k", false, .prim MAY_BE_LONG), (.sk "k", false, .prim MAY_BE_LONG)] 1 h)) ∧
    ((zend_validate_array_shape dup_shape [(.astr "k", .vlong 1)]).ok = true) ∧
    ((zend_validate_array_shape dup_shape [(.astr "k", .vstr "x")]).ok = false) := by
  refine ⟨compileShapeElems_keys, ?_, ?_, ?_, ?_⟩
  · intro els ht h el hmem v hfind
    rw [validate_shape_all_iff, List.all_eq_true] at h
    have := h el hmem
    rwa [shapeElemOk, hfind] at this
  · refine ⟨zend_compute_shape_hash
      [(.sk "k", false, .prim MAY_BE_LONG), (.sk "k", false, .prim MAY_BE_LONG)], ?_⟩
    simp [zend_compile_array_shape_type, compileShapeElems, zend_compile_type_internal,
      bind, Except.bind, pure, Except.pure, zend_type_init_code_mask, MAY_BE_LONG]
  · simp [dup_shape, zend_validate_array_shape, shapeElemKeyFind, zend_hash_find,
      elemTypeMatches, zend_check_type_extended, zend_check_primitive, derefOnce,
      ZEND_TYPE_PURE_MASK, MAY_BE_LONG, MAY_BE_STRING, shapePass]
  · simp [dup_shape, zend_validate_array_shape, shapeElemKeyFind, zend_hash_find,
      elemTypeMatches, zend_check_type_extended, zend_check_primitive, derefOnce,
      ZEND_TYPE_PURE_MASK, MAY_BE_LONG, MAY_BE_STRING]
    decide

/-- Witness for C9: with both occurrences of `k` satisfied by `1`, the
every-occurrence clause applied at the second occurrence. -/
theorem claim_C9_duplicate_keys_witness :
    elemTypeMatches (.prim (MAY_BE_LONG ||| MAY_BE_STRING)) (.vlong 1) = true :=
  claim_C9_duplicate_keys.2.1 dup_shape [(.astr "k", .vlong 1)]
    (by simp [dup_shape, zend_validate_array_shape, shapeElemKeyFind, zend_hash_find,
      elemTypeMatches, zend_check_type_extended, zend_check_primitive, derefOnce,
      ZEND_TYPE_PURE_MASK, MAY_BE_LONG, MAY_BE_STRING, shapePass])
    (.sk "k", false, .prim (MAY_BE_LONG ||| MAY_BE_STRING)) (by simp [dup_shape])
    (.vlong 1) (by simp [shapeElemKeyFind, zend_hash_find])

/-! ## Claim C3: structural equivalence

`types_equivalent_spec` below follows the claim's words (spec §4.3), to be
compared with the embedded `zend_types_are_equivalent`; `tag_wf` states that a
type value's extended-array tag bits agree with the payload it actually
carries, which holds for every compiler output (proved below) and is the
regime in which the tag-bit quick rejection and the payload dispatch describe
the same discrimination. -/

mutual

/-- Tag-bit/payload consistency: `ZEND_TYPE_ARRAY_OF_BIT` is set exactly on
array-of payloads, `ZEND_TYPE_ARRAY_SHAPE_BIT` exactly on shape payloads,
recursively. -/
def tag_wf : ZType → Bool
  | .prim m => m &&& ZEND_TYPE_EXTENDED_ARRAY_MASK == 0
  | .cls m _ => m &&& ZEND_TYPE_EXTENDED_ARRAY_MASK == 0
  | .tlist m ts => (m &&& ZEND_TYPE_EXTENDED_ARRAY_MASK == 0) && tag_wf_list ts
  | .arrayOf m e _ _ =>
    (m &&& ZEND_TYPE_EXTENDED_ARRAY_MASK == ZEND_TYPE_ARRAY_OF_BIT) && tag_wf e
  | .shape m els _ _ =>
    (m &&& ZEND_TYPE_EXTENDED_ARRAY_MASK == ZEND_TYPE_ARRAY_SHAPE_BIT)
      && tag_wf_elems els
termination_by t => sizeOf t

def tag_wf_list : List ZType → Bool
  | [] => true
  | t :: ts => tag_wf t && tag_wf_list ts
termination_by ts => sizeOf ts

def tag_wf_elems : List ShapeElem → Bool
  | [] => true
  | (_k, _o, ty) :: els => tag_wf ty && tag_wf_elems els
termination_by els => sizeOf els

end

mutual

/-- Claim C3's equivalence description, written from the claim's words:
the extended-array tag bits match exactly; when both are array-of the element
types are recursively equivalent; when both are shapes the precomputed hashes
match, counts match, and the elements agree pairwise; otherwise the primitive
masks match exactly and class names present on both sides compare
case-insensitively, a name on only one side never being equivalent. -/
def types_equivalent_spec (a b : ZType) : Bool :=
  (a.type_mask &&& ZEND_TYPE_EXTENDED_ARRAY_MASK
      == b.type_mask &&& ZEND_TYPE_EXTENDED_ARRAY_MASK) &&
  (match a, b with
   | .arrayOf _ ea _ _, .arrayOf _ eb _ _ => types_equivalent_spec ea eb
   | .shape _ elsa _ ha, .shape _ elsb _ hb =>
     (ha == hb) && (elsa.length == elsb.length) && elems_pairwise_spec elsa elsb
   | a, b =>
     (ZEND_TYPE_PURE_MASK a.type_mask == ZEND_TYPE_PURE_MASK b.type_mask) &&
     (match a.class_name, b.class_name with
      | some na, some nb => ci_eq na nb
      | none, none => true
      | _, _ => false))
termination_by (sizeOf a, 0)

/-- Claim C3's pairwise element agreement: key kind, key identity, optional
flag, recursively equivalent element types. -/
def elems_pairwise_spec : List ShapeElem → List ShapeElem → Bool
  | [], [] => true
  | (ka, oa, ta) :: ra, (kb, ob, tb) :: rb =>
    (keyIsString ka == keyIsString kb) && shape_keys_equal ka kb && (oa == ob)
      && types_equivalent_spec ta tb && elems_pairwise_spec ra rb
  | _, _ => false
termination_by la _ => (sizeOf la, 1)

end

theorem nat_decide_beq (x y : Nat) : decide (x = y) = (x == y) := by
  by_cases h : x = y <;> simp [h]

theorem equiv_spec_aux (n : Nat) :
    (∀ a b, sizeOf a ≤ n → tag_wf a = true → tag_wf b = true →
      zend_types_are_equivalent a b = types_equivalent_spec a b) ∧
    (∀ la lb, sizeOf la ≤ n → tag_wf_elems la = true → tag_wf_elems lb = true →
      shape_elements_equivalent la lb = elems_pairwise_spec la lb) := by
  induction n using Nat.strong_induction_on with
  | _ n ih =>
    constructor
    · intro a b ha wa wb
      rw [zend_types_are_equivalent.eq_def, types_equivalent_spec.eq_def]
      cases a <;> cases b <;>
        simp_all [tag_wf, ZType.type_mask, ZType.class_name, ZEND_TYPE_PURE_MASK,
          ZEND_TYPE_EXTENDED_ARRAY_MASK, ZEND_TYPE_ARRAY_OF_BIT,
          ZEND_TYPE_ARRAY_SHAPE_BIT, nat_decide_beq]
      case arrayOf.arrayOf m1 e1 rc1 d1 m2 e2 rc2 d2 =>
        have hlt : sizeOf e1 < n := by
          have := ZType.arrayOf.sizeOf_spec m1 e1 rc1 d1
          omega
        exact (ih (sizeOf e1) hlt).1 e1 e2 le_rfl wa.2 wb.2
      case shape.shape m1 els1 rc1 h1 m2 els2 rc2 h2 =>
        have hlt : sizeOf els1 < n := by
          have := ZType.shape.sizeOf_spec m1 els1 rc1 h1
          omega
        rw [(ih (sizeOf els1) hlt).2 els1 els2 le_rfl wa.2 wb.2]
        simp [Bool.and_assoc]
    · intro la lb ha wa wb
      cases la with
      | nil => cases lb <;> simp [shape_elements_equivalent, elems_pairwise_spec]
      | cons el ra =>
        rcases el with ⟨ka, oa, ta⟩
        cases lb with
        | nil => simp [shape_elements_equivalent, elems_pairwise_spec]
        | cons el2 rb =>
          rcases el2 with ⟨kb, ob, tb⟩
          simp only [shape_elements_equivalent, elems_pairwise_spec]
          simp only [tag_wf_elems, Bool.and_eq_true] at wa wb
          have hta : sizeOf ta < n := by
            have h1 : sizeOf ((ka, oa, ta) :: ra) ≤ n := ha
            have h2 : sizeOf ((ka, oa, ta) : ShapeElem) = 1 + sizeOf ka + (1 + sizeOf oa + sizeOf ta) := by
              simp [Prod.mk.sizeOf_spec]
            have h3 : sizeOf ((ka, oa, ta) :: ra) = 1 + sizeOf ((ka, oa, ta) : ShapeElem) + sizeOf ra := by
              simp [List.cons.sizeOf_spec]
            omega
          have hra : sizeOf ra < n := by
            have h1 : sizeOf ((ka, oa, ta) :: ra) ≤ n := ha
            have h2 : sizeOf ((ka, oa, ta) : ShapeElem) = 1 + sizeOf ka + (1 + sizeOf oa + sizeOf ta) := by
              simp [Prod.mk.sizeOf_spec]
            have h3 : sizeOf ((ka, oa, ta) :: ra) = 1 + sizeOf ((ka, oa, ta) : ShapeElem) + sizeOf ra := by
              simp [List.cons.sizeOf_spec]
            omega
          rw [(ih (sizeOf ta) hta).1 ta tb le_rfl wa.1 wb.1,
            (ih (sizeOf ra) hra).2 ra rb le_rfl wa.2 wb.2]
          cases ka <;> cases kb <;> simp [keyIsString, shape_keys_equal, Bool.and_assoc]

theorem equiv_refl_aux (n : Nat) :
    (∀ t, sizeOf t ≤ n → zend_types_are_equivalent t t = true) ∧
    (∀ la, sizeOf la ≤ n → shape_elements_equivalent la la = true) := by
  induction n using Nat.strong_induction_on with
  | _ n ih =>
    constructor
    · intro t ht
      rw [zend_types_are_equivalent.eq_def]
      cases t <;> simp [ZType.type_mask, ZType.class_name, ci_eq]
      case arrayOf m e rc d =>
        have hlt : sizeOf e < n := by
          have := ZType.arrayOf.sizeOf_spec m e rc d
          omega
        exact (ih (sizeOf e) hlt).1 e le_rfl
      case shape m els rc h =>
        have hlt : sizeOf els < n := by
          have := ZType.shape.sizeOf_spec m els rc h
          omega
        exact (ih (sizeOf els) hlt).2 els le_rfl
    · intro la hla
      cases la with
      | nil => simp [shape_elements_equivalent]
      | cons el ra =>
        rcases el with ⟨ka, oa, ta⟩
        have hta : sizeOf ta < n := by
          have h2 : sizeOf ((ka, oa, ta) : ShapeElem) =
              1 + sizeOf ka + (1 + sizeOf oa + sizeOf ta) := by
            simp [Prod.mk.sizeOf_spec]
          have h3 : sizeOf ((ka, oa, ta) :: ra) =
              1 + sizeOf ((ka, oa, ta) : ShapeElem) + sizeOf ra := by
            simp [List.cons.sizeOf_spec]
          omega
        have hra : sizeOf ra < n := by
          have h2 : sizeOf ((ka, oa, ta) : ShapeElem) =
              1 + sizeOf ka + (1 + sizeOf oa + sizeOf ta) := by
            simp [Prod.mk.sizeOf_spec]
          have h3 : sizeOf ((ka, oa, ta) :: ra) =
              1 + sizeOf ((ka, oa, ta) : ShapeElem) + sizeOf ra := by
            simp [List.cons.sizeOf_spec]
          omega
        simp [shape_elements_equivalent, (ih (sizeOf ta) hta).1 ta le_rfl,
          (ih (sizeOf ra) hra).2 ra le_rfl]
        cases ka <;> simp [shape_keys_equal]

/-- `zend_types_are_equivalent` is reflexive, so two independently compiled
copies of one declaration (the compiler is a pure function) are equivalent. -/
theorem zend_types_are_equivalent_refl (t : ZType) :
    zend_types_are_equivalent t t = true :=
  (equiv_refl_aux (sizeOf t)).1 t le_rfl

theorem shape_keys_equal_eq {a b : ShapeKey} (h : shape_keys_equal a b = true) :
    a = b := by
  cases a <;> cases b <;> simp [shape_keys_equal] at h <;> simp [h]

/-- A passing pairwise element comparison forces equal key sequences, equal
lengths and equal optional-flag sequences. -/
theorem shape_elements_equivalent_structure (la lb : List ShapeElem)
    (h : shape_elements_equivalent la lb = true) :
    la.map (fun e => e.1) = lb.map (fun e => e.1) ∧
    la.length = lb.length ∧
    la.map (fun e => e.2.1) = lb.map (fun e => e.2.1) := by
  induction la generalizing lb with
  | nil =>
    cases lb with
    | nil => simp
    | cons el rb => simp [shape_elements_equivalent] at h
  | cons el ra ih =>
    cases lb with
    | nil => simp [shape_elements_equivalent] at h
    | cons el2 rb =>
      rcases el with ⟨ka, oa, ta⟩
      rcases el2 with ⟨kb, ob, tb⟩
      simp only [shape_elements_equivalent, Bool.and_eq_true] at h
      have hk := shape_keys_equal_eq h.1.1.1
      have ho : oa = ob := by simpa using h.1.1.2
      have := ih rb h.2
      simp [hk, ho, this.1, this.2.1, this.2.2]

/-- A positive equivalence verdict between two shape types forces equal key
sequences, element counts, and optional flags. -/
theorem equivalent_shapes_structure (m1 m2 rc1 rc2 h1 h2 : Nat)
    (els1 els2 : List ShapeElem)
    (h : zend_types_are_equivalent (.shape m1 els1 rc1 h1) (.shape m2 els2 rc2 h2)
      = true) :
    els1.map (fun e => e.1) = els2.map (fun e => e.1) ∧
    els1.length = els2.length ∧
    els1.map (fun e => e.2.1) = els2.map (fun e => e.2.1) := by
  rw [zend_types_are_equivalent.eq_def] at h
  simp only [ZType.type_mask] at h
  split_ifs at h
  exact shape_elements_equivalent_structure els1 els2 h

/-! AST well-formedness: the excluded syntax layer only produces built-in type
codes for the basic kinds in bits 0..15 (the repository header documents that
layout); `ast_wf` captures that, and compiled types are then tag-consistent. -/

mutual

def ast_wf : ZAst → Bool
  | .type_array_of e => ast_wf e
  | .type_array_shape es => ast_wf_shape_elems es
  | .type_code code => code < 16
  | .class_type _ => true
  | .nullable e => ast_wf e
  | .type_union ms => ast_wf_list ms
  | .type_intersection ms => ast_wf_list ms
termination_by a => sizeOf a

def ast_wf_shape_elems : List (KeyLit × Bool × ZAst) → Bool
  | [] => true
  | (_, _, tast) :: rest => ast_wf tast && ast_wf_shape_elems rest
termination_by l => sizeOf l

def ast_wf_list : List ZAst → Bool
  | [] => true
  | m :: ms => ast_wf m && ast_wf_list ms
termination_by l => sizeOf l

end

theorem small_and_ext (m : Nat) (h : m < 65536) :
    m &&& ZEND_TYPE_EXTENDED_ARRAY_MASK = 0 := by
  apply Nat.eq_of_testBit_eq
  intro i
  simp only [Nat.testBit_land, Nat.zero_testBit, ZEND_TYPE_EXTENDED_ARRAY_MASK,
    ZEND_TYPE_ARRAY_OF_BIT, ZEND_TYPE_ARRAY_SHAPE_BIT]
  rcases le_or_lt 16 i with hi | hi
  · have h16 : (65536 : Nat) = 2 ^ 16 := by norm_num
    rw [h16] at h
    have : m < 2 ^ i := lt_of_lt_of_le h (Nat.pow_le_pow_right (by norm_num) hi)
    simp [Nat.testBit_lt_two_pow this]
  · have hM : Nat.testBit 50331648 i = false := by interval_cases i <;> decide
    simp [hM]

theorem or_null_and_ext (m : Nat) :
    (m ||| MAY_BE_NULL) &&& ZEND_TYPE_EXTENDED_ARRAY_MASK =
      m &&& ZEND_TYPE_EXTENDED_ARRAY_MASK := by
  apply Nat.eq_of_testBit_eq
  intro i
  simp only [Nat.testBit_land, Nat.testBit_lor]
  have h0 : (Nat.testBit MAY_BE_NULL i && Nat.testBit ZEND_TYPE_EXTENDED_ARRAY_MASK i)
      = false := by
    have hz : MAY_BE_NULL &&& ZEND_TYPE_EXTENDED_ARRAY_MASK = 0 :=
      small_and_ext MAY_BE_NULL (by norm_num [MAY_BE_NULL])
    have := congrArg (fun x => Nat.testBit x i) hz
    simpa [Nat.testBit_land] using this
  cases hm : Nat.testBit m i <;>
    cases h2 : Nat.testBit MAY_BE_NULL i <;>
      cases hM : Nat.testBit ZEND_TYPE_EXTENDED_ARRAY_MASK i <;> simp_all

theorem tag_wf_orMask_null (t : ZType) :
    tag_wf (t.orMask MAY_BE_NULL) = tag_wf t := by
  cases t <;> simp [ZType.orMask, tag_wf, or_null_and_ext]

theorem compile_tag_wf_aux (n : Nat) :
    (∀ ast p t, sizeOf ast ≤ n → ast_wf ast = true →
      zend_compile_type_internal ast p = .ok t → tag_wf t = true) ∧
    (∀ asts els, sizeOf asts ≤ n → ast_wf_shape_elems asts = true →
      compileShapeElems asts = .ok els → tag_wf_elems els = true) ∧
    (∀ ms p ts, sizeOf ms ≤ n → ast_wf_list ms = true →
      compileTypeList ms p = .ok ts → tag_wf_list ts = true) := by
  induction n using Nat.strong_induction_on with
  | _ n ih =>
    refine ⟨?_, ?_, ?_⟩
    · intro ast p t ha hw hc
      cases ast with
      | type_array_of e =>
        simp only [zend_compile_type_internal, zend_compile_array_of_type, bind,
          Except.bind] at hc
        rcases h1 : zend_compile_type_internal e true with e' | et <;> rw [h1] at hc
        · cases hc
        · simp only [pure, Except.pure, Except.ok.injEq] at hc
          subst hc
          have hlt : sizeOf e < n := by
            have : sizeOf (ZAst.type_array_of e) = 1 + sizeOf e := by
              simp [ZAst.type_array_of.sizeOf_spec]
            omega
          have het := (ih (sizeOf e) hlt).1 e true et le_rfl
            (by simpa [ast_wf] using hw) h1
          simp [tag_wf, het]
          decide
      | type_array_shape es =>
        simp only [zend_compile_type_internal, zend_compile_array_shape_type, bind,
          Except.bind] at hc
        rcases h1 : compileShapeElems es with e' | els <;> rw [h1] at hc
        · cases hc
        · simp only [pure, Except.pure, Except.ok.injEq] at hc
          subst hc
          have hlt : sizeOf es < n := by
            have : sizeOf (ZAst.type_array_shape es) = 1 + sizeOf es := by
              simp [ZAst.type_array_shape.sizeOf_spec]
            omega
          have hels := (ih (sizeOf es) hlt).2.1 es els le_rfl
            (by simpa [ast_wf] using hw) h1
          simp [tag_wf, hels]
          decide
      | type_code code =>
        simp only [zend_compile_type_internal, pure, Except.pure,
          Except.ok.injEq] at hc
        subst hc
        have hcode : code < 16 := by simpa [ast_wf] using hw
        have hsmall : zend_type_init_code_mask code < 65536 := by
          have h1 : (1 : Nat) <<< code = 2 ^ code := Nat.one_shiftLeft code
          have h2 : (2 : Nat) ^ code < 2 ^ 16 :=
            Nat.pow_lt_pow_right (by norm_num) hcode
          simp only [zend_type_init_code_mask, h1]
          omega
        simp [tag_wf, small_and_ext _ hsmall]
      | class_type name =>
        simp only [zend_compile_type_internal, pure, Except.pure,
          Except.ok.injEq] at hc
        subst hc
        simp [tag_wf, ZEND_TYPE_NAME_BIT]
        decide
      | nullable e =>
        simp only [zend_compile_type_internal, bind, Except.bind] at hc
        rcases h1 : zend_compile_type_internal e p with e' | ti <;> rw [h1] at hc
        · cases hc
        · simp only [pure, Except.pure, Except.ok.injEq] at hc
          subst hc
          have hlt : sizeOf e < n := by
            have : sizeOf (ZAst.nullable e) = 1 + sizeOf e := by
              simp [ZAst.nullable.sizeOf_spec]
            omega
          have hti := (ih (sizeOf e) hlt).1 e p ti le_rfl
            (by simpa [ast_wf] using hw) h1
          rw [tag_wf_orMask_null]
          exact hti
      | type_union ms =>
        simp only [zend_compile_type_internal, bind, Except.bind] at hc
        rcases h1 : compileTypeList ms p with e' | ts <;> rw [h1] at hc
        · cases hc
        · simp only [pure, Except.pure, Except.ok.injEq] at hc
          subst hc
          have hlt : sizeOf ms < n := by
            have : sizeOf (ZAst.type_union ms) = 1 + sizeOf ms := by
              simp [ZAst.type_union.sizeOf_spec]
            omega
          have hts := (ih (sizeOf ms) hlt).2.2 ms p ts le_rfl
            (by simpa [ast_wf] using hw) h1
          simp [tag_wf, hts]
          decide
      | type_intersection ms =>
        simp only [zend_compile_type_internal, bind, Except.bind] at hc
        rcases h1 : compileTypeList ms p with e' | ts <;> rw [h1] at hc
        · cases hc
        · simp only [pure, Except.pure, Except.ok.injEq] at hc
          subst hc
          have hlt : sizeOf ms < n := by
            have : sizeOf (ZAst.type_intersection ms) = 1 + sizeOf ms := by
              simp [ZAst.type_intersection.sizeOf_spec]
            omega
          have hts := (ih (sizeOf ms) hlt).2.2 ms p ts le_rfl
            (by simpa [ast_wf] using hw) h1
          simp [tag_wf, hts]
          decide
    · intro asts els ha hw hc
      cases asts with
      | nil =>
        simp only [compileShapeElems, pure, Except.pure, Except.ok.injEq] at hc
        subst hc
        simp [tag_wf_elems]
      | cons a rest =>
        rcases a with ⟨k, opt, tast⟩
        have hlt1 : sizeOf tast < n := by
          have h2 : sizeOf ((k, opt, tast) : KeyLit × Bool × ZAst) =
              1 + sizeOf k + (1 + sizeOf opt + sizeOf tast) := by
            simp [Prod.mk.sizeOf_spec]
          have h3 : sizeOf ((k, opt, tast) :: rest) =
              1 + sizeOf ((k, opt, tast) : KeyLit × Bool × ZAst) + sizeOf rest := by
            simp [List.cons.sizeOf_spec]
          omega
        have hlt2 : sizeOf rest < n := by
          have h2 : sizeOf ((k, opt, tast) : KeyLit × Bool × ZAst) =
              1 + sizeOf k + (1 + sizeOf opt + sizeOf tast) := by
            simp [Prod.mk.sizeOf_spec]
          have h3 : sizeOf ((k, opt, tast) :: rest) =
              1 + sizeOf ((k, opt, tast) : KeyLit × Bool × ZAst) + sizeOf rest := by
            simp [List.cons.sizeOf_spec]
          omega
        simp only [ast_wf_shape_elems, Bool.and_eq_true] at hw
        cases k <;>
          simp only [compileShapeElems, pure, Except.pure, bind, Except.bind, throw,
            throwThe, MonadExceptOf.throw] at hc
        case kstr str =>
          rcases h1 : zend_compile_type_internal tast true with e' | ty <;> rw [h1] at hc
          · cases hc
          · rcases h2 : compileShapeElems rest with e' | tail <;> rw [h2] at hc
            · cases hc
            · rcases Except.ok.inj hc with rfl
              simp [tag_wf_elems,
                (ih (sizeOf tast) hlt1).1 tast true ty le_rfl hw.1 h1,
                (ih (sizeOf rest) hlt2).2.1 rest tail le_rfl hw.2 h2]
        case kint i =>
          rcases h1 : zend_compile_type_internal tast true with e' | ty <;> rw [h1] at hc
          · cases hc
          · rcases h2 : compileShapeElems rest with e' | tail <;> rw [h2] at hc
            · cases hc
            · rcases Except.ok.inj hc with rfl
              simp [tag_wf_elems,
                (ih (sizeOf tast) hlt1).1 tast true ty le_rfl hw.1 h1,
                (ih (sizeOf rest) hlt2).2.1 rest tail le_rfl hw.2 h2]
        case kother => cases hc
    · intro ms p ts ha hw hc
      cases ms with
      | nil =>
        simp only [compileTypeList, pure, Except.pure, Except.ok.injEq] at hc
        subst hc
        simp [tag_wf_list]
      | cons m rest =>
        have hlt1 : sizeOf m < n := by
          have h3 : sizeOf (m :: rest) = 1 + sizeOf m + sizeOf rest := by
            simp [List.cons.sizeOf_spec]
          omega
        have hlt2 : sizeOf rest < n := by
          have h3 : sizeOf (m :: rest) = 1 + sizeOf m + sizeOf rest := by
            simp [List.cons.sizeOf_spec]
          have h4 : 0 < sizeOf m := by
            cases m <;> simp [ZAst.type_array_of.sizeOf_spec]
          omega
        simp only [ast_wf_list, Bool.and_eq_true] at hw
        simp only [compileTypeList, pure, Except.pure, bind, Except.bind] at hc
        rcases h1 : zend_compile_type_internal m p with e' | ty <;> rw [h1] at hc
        · cases hc
        · rcases h2 : compileTypeList rest p with e' | tail <;> rw [h2] at hc
          · cases hc
          · rcases Except.ok.inj hc with rfl
            simp [tag_wf_list, (ih (sizeOf m) hlt1).1 m p ty le_rfl hw.1 h1,
              (ih (sizeOf rest) hlt2).2.2 rest p tail le_rfl hw.2 h2]

/-- Every successfully compiled type (from a well-formed AST) carries
extended-array tag bits consistent with its payload. -/
theorem zend_compile_tag_wf (ast : ZAst) (p : Bool) (t : ZType)
    (hw : ast_wf ast = true) (hc : zend_compile_type_internal ast p = .ok t) :
    tag_wf t = true :=
  (compile_tag_wf_aux (sizeOf ast)).1 ast p t le_rfl hw hc

/-- Claim C3: over tag-consistent type values (which all compiler outputs
are), `zend_types_are_equivalent` returns true exactly under the claim's
description (`types_equivalent_spec`); equivalence is reflexive, so two
independently compiled copies of one declaration — the compiler being a pure
function — are equivalent; and between two shapes, a differing key sequence
(in particular a reordering of distinct keys) or a differing element count
(in particular one extra optional key) forces non-equivalence. -/
theorem claim_C3_equivalence :
    (∀ a b, tag_wf a = true → tag_wf b = true →
      zend_types_are_equivalent a b = types_equivalent_spec a b) ∧
    (∀ ast p t, ast_wf ast = true → zend_compile_type_internal ast p = .ok t →
      tag_wf t = true ∧ zend_types_are_equivalent t t = true) ∧
    (∀ t, zend_types_are_equivalent t t = true) ∧
    (∀ m1 m2 rc1 rc2 h1 h2 (els1 els2 : List ShapeElem),
      els1.map (fun e => e.1) ≠ els2.map (fun e => e.1) →
      zend_types_are_equivalent (.shape m1 els1 rc1 h1) (.shape m2 els2 rc2 h2)
        = false) ∧
    (∀ m1 m2 rc1 rc2 h1 h2 (els1 els2 : List ShapeElem),
      els1.length ≠ els2.length →
      zend_types_are_equivalent (.shape m1 els1 rc1 h1) (.shape m2 els2 rc2 h2)
        = false) := by
  refine ⟨?_, ?_, zend_types_are_equivalent_refl, ?_, ?_⟩
  · intro a b wa wb
    exact (equiv_spec_aux (sizeOf a)).1 a b le_rfl wa wb
  · intro ast p t hw hc
    exact ⟨zend_compile_tag_wf ast p t hw hc, zend_types_are_equivalent_refl t⟩
  · intro m1 m2 rc1 rc2 h1 h2 els1 els2 hne
    rcases Bool.eq_false_or_eq_true
      (zend_types_are_equivalent (.shape m1 els1 rc1 h1) (.shape m2 els2 rc2 h2))
        with h | h
    · exact absurd (equivalent_shapes_structure m1 m2 rc1 rc2 h1 h2 els1 els2 h).1 hne
    · exact h
  · intro m1 m2 rc1 rc2 h1 h2 els1 els2 hne
    rcases Bool.eq_false_or_eq_true
      (zend_types_are_equivalent (.shape m1 els1 rc1 h1) (.shape m2 els2 rc2 h2))
        with h | h
    · exact absurd (equivalent_shapes_structure m1 m2 rc1 rc2 h1 h2 els1 els2 h).2.1 hne
    · exact h

/-- Witness for C3: reordering the two distinct keys of a concrete shape
breaks equivalence. -/
theorem claim_C3_equivalence_witness :
    zend_types_are_equivalent
      (.shape 33554560 [(.sk "a", false, .prim 16), (.sk "b", false, .prim 64)] 1 0)
      (.shape 33554560 [(.sk "b", false, .prim 64), (.sk "a", false, .prim 16)] 1 0)
      = false :=
  claim_C3_equivalence.2.2.2.1 33554560 33554560 1 1 0 0
    [(.sk "a", false, .prim 16), (.sk "b", false, .prim 64)]
    [(.sk "b", false, .prim 64), (.sk "a", false, .prim 16)]
    (by decide)

/-! ## Claims C7 and C10: array-of nesting depth -/

/-- The AST of `array<array<...array<int>...>>` with `n` wrappers
(`IS_LONG = 4` is the modelled built-in code for `int`). -/
def nestedArrayAst : Nat → ZAst
  | 0 => .type_code 4
  | n + 1 => .type_array_of (nestedArrayAst n)

/-- The compiled form of `nestedArrayAst n`: each wrapper stores refcount 1
and the `uint8_t` depth `n % 256`. -/
def nestedCompiled : Nat → ZType
  | 0 => .prim MAY_BE_LONG
  | n + 1 =>
    .arrayOf (ZEND_TYPE_ARRAY_OF_BIT ||| MAY_BE_ARRAY) (nestedCompiled n) 1
      ((n + 1) % 256)

theorem compile_nested (n : Nat) :
    zend_compile_type_internal (nestedArrayAst n) true = .ok (nestedCompiled n) := by
  induction n with
  | zero =>
    simp [nestedArrayAst, nestedCompiled, zend_compile_type_internal,
      zend_type_init_code_mask, MAY_BE_LONG, pure, Except.pure]
  | succ n ih =>
    simp only [nestedArrayAst, zend_compile_type_internal,
      zend_compile_array_of_type, bind, Except.bind, ih, pure, Except.pure]
    cases n with
    | zero => simp [nestedCompiled]
    | succ m =>
      simp [nestedCompiled]

/-- Counterexample to claim C7 as stated: the depth field is a `uint8_t`, so
at 256 nested wrappers the stored outer depth is `0`, not the element's
stored depth `255` plus one. -/
theorem claim_C7_counterexample :
    zend_compile_type_internal (nestedArrayAst 256) true =
      .ok (.arrayOf (ZEND_TYPE_ARRAY_OF_BIT ||| MAY_BE_ARRAY) (nestedCompiled 255) 1 0) ∧
    reflection_array_of_get_depth (nestedCompiled 255) = 255 ∧
    (0 : Nat) ≠ 255 + 1 := by
  refine ⟨?_, ?_, by norm_num⟩
  · have h := compile_nested 256
    rw [show (256 : Nat) = 255 + 1 from rfl, nestedCompiled] at h
    simpa using h
  · rw [show (255 : Nat) = 254 + 1 from rfl, nestedCompiled]
    simp [reflection_array_of_get_depth]

/-- Claim C7 amended: a compiled `array<T>` stores depth 1 when `T` is not an
array-of, and the element's stored depth plus one reduced `mod 256` (the
`uint8_t` field) when it is; shape elements do not add depth —
`array<array<array<int>>>` has depth 3 and `array<array\x7bid: int\x7d>` has
outer depth 1. -/
theorem claim_C7_amended :
    (∀ east t, zend_compile_array_of_type (.type_array_of east) = .ok t →
      ∃ m e rc, t = .arrayOf m e rc
        (match e with
         | .arrayOf _ _ _ di => (di + 1) % 256
         | _ => 1)) ∧
    ((zend_compile_type_internal (nestedArrayAst 3) true).map
      reflection_array_of_get_depth = .ok 3) ∧
    ((zend_compile_array_of_type
        (.type_array_of (.type_array_shape [(.kstr "id", false, .type_code 4)]))).map
      reflection_array_of_get_depth = .ok 1) := by
  refine ⟨?_, ?_, ?_⟩
  · intro east t hc
    simp only [zend_compile_array_of_type, bind, Except.bind] at hc
    rcases h1 : zend_compile_type_internal east true with e' | et <;> rw [h1] at hc
    · cases hc
    · simp only [pure, Except.pure, Except.ok.injEq] at hc
      subst hc
      exact ⟨_, et, 1, rfl⟩
  · rw [compile_nested 3]
    rw [show (3 : Nat) = 2 + 1 from rfl, nestedCompiled]
    simp [reflection_array_of_get_depth, Except.map]
  · simp only [zend_compile_array_of_type, zend_compile_type_internal,
      zend_compile_array_shape_type, compileShapeElems, bind, Except.bind, pure,
      Except.pure]
    simp [reflection_array_of_get_depth, Except.map]

/-- Witness for the amended C7: the depth equation applied at
`array<array<int>>`. -/
theorem claim_C7_amended_witness :
    ∃ m e rc, nestedCompiled 2 = .arrayOf m e rc
      (match e with
       | .arrayOf _ _ _ di => (di + 1) % 256
       | _ => 1) := by
  have h := claim_C7_amended.1 (nestedArrayAst 1) (nestedCompiled 2)
    (by
      have h2 := compile_nested 2
      rw [show (2 : Nat) = 1 + 1 from rfl, nestedArrayAst] at h2
      simpa [zend_compile_type_internal] using h2)
  exact h

/-- Claim C10: for a chain of `n ≥ 1` array-of wrappers the stored `uint8_t`
depth — and hence `ReflectionArrayOfType::getDepth` — is `n % 256`, which
differs from `n` once `n` exceeds 255 (at `n = 256` the reported depth is
0). -/
theorem claim_C10_depth_wraps :
    (∀ n, 1 ≤ n → ∃ t, zend_compile_type_internal (nestedArrayAst n) true = .ok t ∧
      reflection_array_of_get_depth t = n % 256) ∧
    ((zend_compile_type_internal (nestedArrayAst 256) true).map
      reflection_array_of_get_depth = .ok 0) ∧
    (256 : Nat) % 256 ≠ 256 := by
  refine ⟨?_, ?_, by norm_num⟩
  · intro n hn
    rcases Nat.exists_eq_add_of_le hn with ⟨m, rfl⟩
    refine ⟨nestedCompiled (1 + m), compile_nested (1 + m), ?_⟩
    rw [show 1 + m = m + 1 from by omega, nestedCompiled]
    simp [reflection_array_of_get_depth]
  · rw [compile_nested 256]
    rw [show (256 : Nat) = 255 + 1 from rfl, nestedCompiled]
    simp [reflection_array_of_get_depth, Except.map]

/-- Witness for C10: the wrap clause applied at `n = 257`, whose stored and
reflected depth is `257 % 256 = 1`. -/
theorem claim_C10_depth_wraps_witness :
    ∃ t, zend_compile_type_internal (nestedArrayAst 257) true = .ok t ∧
      reflection_array_of_get_depth t = 257 % 256 :=
  claim_C10_depth_wraps.1 257 (by norm_num)

/-! ## Claim C5: release lifecycle -/

/-- A single-owner `array<int>` descriptor (refcount 1). -/
def c5_inner : ZType :=
  .arrayOf (ZEND_TYPE_ARRAY_OF_BIT ||| MAY_BE_ARRAY) (.prim MAY_BE_LONG) 1 1

/-- An `array<array<int>>` descriptor shared by two owners (refcount 2), as
after one signature duplication. -/
def c5_outer : ZType :=
  .arrayOf (ZEND_TYPE_ARRAY_OF_BIT ||| MAY_BE_ARRAY) c5_inner 2 2

/-- Evaluation of `zend_type_release_extended` at the failing input of claim
C5: releasing a descriptor whose refcount is 2 emits the recursive release of
its owned element type first — the single-owner inner descriptor is
decremented to zero and freed — although the outer decrement only reaches
refcount 1 and the outer descriptor is not freed.  The trace's only free
event is the owned member's, produced while the owner's refcount was still
positive, contradicting the claim's "members are released only when the
refcount reaches zero".  (With all refcounts 1, as in the second conjunct,
decrement and free do coincide.) -/
theorem claim_C5_code_evaluation :
    zend_type_release_extended c5_outer =
      [.decref_array_of (.prim MAY_BE_LONG) 0, .free_array_of (.prim MAY_BE_LONG),
       .decref_array_of c5_inner 1] ∧
    (zend_type_release_extended c5_outer).filter isFreeEvent =
      [.free_array_of (.prim MAY_BE_LONG)] ∧
    zend_type_release_extended c5_inner =
      [.decref_array_of (.prim MAY_BE_LONG) 0, .free_array_of (.prim MAY_BE_LONG)] := by
  refine ⟨?_, ?_, ?_⟩ <;>
    simp [c5_outer, c5_inner, zend_type_release_extended,
      zend_array_of_release_events, isFreeEvent]

/-! ## Claim C8: the stringifier -/

/-- How one shape element is rendered: key, optional `?`, `": "`, element
type. -/
def shapeElemString (el : ShapeElem) : String :=
  shapeKeyString el.1 ++ (if el.2.1 then "?" else "") ++ ": " ++
    zend_type_to_string_extended el.2.2

/-- Separator-joined rendering of a list of strings ("comma-joined",
"joined by `|` or `&`"). -/
def joinSep (sep : String) : List String → String
  | [] => ""
  | [x] => x
  | x :: y :: xs => x ++ sep ++ joinSep sep (y :: xs)

theorem stringifyShapeElems_join (els : List ShapeElem) :
    stringifyShapeElems els true = joinSep ", " (els.map shapeElemString) ∧
    stringifyShapeElems els false =
      (if els.isEmpty then ""
       else ", " ++ joinSep ", " (els.map shapeElemString)) := by
  induction els with
  | nil => simp [stringifyShapeElems, joinSep]
  | cons el rest ih =>
    rcases el with ⟨key, opt, ty⟩
    cases rest with
    | nil =>
      simp [stringifyShapeElems, joinSep, shapeElemString, String.append_assoc,
        String.append_empty, String.empty_append]
    | cons el2 rest2 =>
      constructor
      · simp only [stringifyShapeElems, ih.2]
        simp [joinSep, shapeElemString, String.append_assoc, String.empty_append,
          List.map_cons]
      · simp only [stringifyShapeElems, ih.2]
        simp [joinSep, shapeElemString, String.append_assoc, List.map_cons]

theorem stringifyTypeList_join (ts : List ZType) (sep : String) :
    stringifyTypeList ts sep true =
      joinSep sep (ts.map zend_type_to_string_extended) ∧
    stringifyTypeList ts sep false =
      (if ts.isEmpty then ""
       else sep ++ joinSep sep (ts.map zend_type_to_string_extended)) := by
  induction ts with
  | nil => simp [stringifyTypeList, joinSep]
  | cons t rest ih =>
    cases rest with
    | nil =>
      simp [stringifyTypeList, joinSep, String.append_assoc, String.append_empty,
        String.empty_append]
    | cons t2 rest2 =>
      constructor
      · simp only [stringifyTypeList, ih.2]
        simp [joinSep, String.append_assoc, String.empty_append, List.map_cons]
      · simp only [stringifyTypeList, ih.2]
        simp [joinSep, String.append_assoc, List.map_cons]

/-- Claim C8: the stringifier is a pure function (so repeated calls on one
Type Value agree by reflexivity), and it produces `array<` + element + `>`
for array-of types; `array\x7b` + the comma-joined `key[?]: type` elements in
declaration order + `\x7d` for shapes; the members joined by `|` or `&` for
union/intersection lists; the stored name for class types; the fixed keyword
of each set mask bit for plain types, with a mask of null plus exactly one
other alternative rendered with a leading `?`. -/
theorem claim_C8_stringify :
    (∀ t, zend_type_to_string_extended t = zend_type_to_string_extended t) ∧
    (∀ m e rc d, zend_type_to_string_extended (.arrayOf m e rc d) =
      "array<" ++ zend_type_to_string_extended e ++ ">") ∧
    (∀ m els rc h, zend_type_to_string_extended (.shape m els rc h) =
      "array\x7b" ++ joinSep ", " (els.map shapeElemString) ++ "\x7d") ∧
    (∀ m ts, zend_type_to_string_extended (.tlist m ts) =
      joinSep (if m &&& ZEND_TYPE_INTERSECTION_BIT != 0 then "&" else "|")
        (ts.map zend_type_to_string_extended)) ∧
    (∀ m n, zend_type_to_string_extended (.cls m n) = n) ∧
    (∀ b kw, (b, kw) ∈ maskKeywords → zend_type_to_string_extended (.prim b) = kw) ∧
    (∀ b kw, (b, kw) ∈ maskKeywords → b ≠ MAY_BE_NULL →
      zend_type_to_string_extended (.prim (MAY_BE_NULL ||| b)) = "?" ++ kw) ∧
    (∀ m, m &&& 65535 = m → m &&& ZEND_TYPE_EXTENDED_ARRAY_MASK = 0 →
      m &&& MAY_BE_NULL = 0 → selectedKeywords m false ≠ [] →
      zend_type_to_string_extended (.prim m) =
        String.intercalate "|" (selectedKeywords m false)) := by
  refine ⟨fun t => rfl, ?_, ?_, ?_, ?_, ?_, ?_, ?_⟩
  · intro m e rc d
    simp [zend_type_to_string_extended]
  · intro m els rc h
    simp [zend_type_to_string_extended, (stringifyShapeElems_join els).1]
  · intro m ts
    simp [zend_type_to_string_extended, (stringifyTypeList_join ts _).1]
  · intro m n
    simp [zend_type_to_string_extended]
  · intro b kw h
    simp only [maskKeywords] at h
    fin_cases h <;> simp only [zend_type_to_string_extended] <;> decide
  · intro b kw h hb
    simp only [maskKeywords] at h
    fin_cases h <;>
      first
        | exact absurd rfl hb
        | simp only [zend_type_to_string_extended] <;> decide
  · intro m hm hext hnull hne
    simp only [zend_type_to_string_extended, ZEND_TYPE_PURE_MASK, hm, hext]
    rw [renderPlainMask]
    simp [hnull, List.isEmpty_iff, hne]

/-- Witness for C8: the keyword clause at the `int` bit and the leading-`?`
clause at null plus `string`. -/
theorem claim_C8_stringify_witness :
    zend_type_to_string_extended (.prim MAY_BE_LONG) = "int" ∧
    zend_type_to_string_extended (.prim (MAY_BE_NULL ||| MAY_BE_STRING)) =
      "?" ++ "string" :=
  ⟨claim_C8_stringify.2.2.2.2.2.1 MAY_BE_LONG "int" (by decide),
   claim_C8_stringify.2.2.2.2.2.2.1 MAY_BE_STRING "string" (by decide) (by decide)⟩

/-! ## Claim C4: verification facade diagnostics -/

theorem validate_shape_missing (pre post : List ShapeElem) (ht : List (AKey × ZVal))
    (key : ShapeKey) (ty : ZType) (hpre : pre.all (shapeElemOk ht) = true)
    (hfind : shapeElemKeyFind ht key = none) :
    zend_validate_array_shape (pre ++ (key, false, ty) :: post) ht =
      ⟨false, missingStrOf key, missingNumOf key, keyIsString key, none,
        some (key, false, ty)⟩ := by
  rw [validate_shape_first_fail pre (key, false, ty) post ht hpre
    (by simp [shapeElemOk, hfind])]
  simp [shapeFailResult, hfind]

theorem verifyTypeDispatch_len (t : ZType) (v : ZVal) :
    ((verifyTypeDispatch t v).2).length =
      (if (verifyTypeDispatch t v).1 then 0 else 1) := by
  cases t with
  | arrayOf m e rc d =>
    cases v
    case varr ht =>
      rcases hv : zend_validate_array_of e ht with ⟨ok, b⟩
      cases ok <;> simp [verifyTypeDispatch, hv]
    all_goals simp [verifyTypeDispatch]
  | shape m els rc h =>
    cases v
    case varr ht =>
      by_cases hok : (zend_validate_array_shape els ht).ok = true <;>
        simp [verifyTypeDispatch, hok]
    all_goals simp [verifyTypeDispatch]
  | prim m =>
    by_cases hc : zend_check_type_extended (.prim m) v = true <;>
      simp [verifyTypeDispatch, hc]
  | cls m n =>
    by_cases hc : zend_check_type_extended (.cls m n) v = true <;>
      simp [verifyTypeDispatch, hc]
  | tlist m ts =>
    by_cases hc : zend_check_type_extended (.tlist m ts) v = true <;>
      simp [verifyTypeDispatch, hc]

theorem zend_verify_return_len (t : ZType) (v : ZVal) :
    ((zend_verify_return_type_extended t v).2).length =
      (if (zend_verify_return_type_extended t v).1 then 0 else 1) := by
  unfold zend_verify_return_type_extended
  split
  · cases v <;> simp
  · split
    · simp
    · exact verifyTypeDispatch_len t v

theorem shapeFailureDiag_not_generic (declared : ZType) (r : ShapeResult)
    (hf : r.failed_element.isSome = true) (s : String) :
    shapeFailureDiag declared r ≠ .no_match s := by
  rcases r with ⟨ok, mk, mkn, isk, bv, fe⟩
  cases fe with
  | none => simp at hf
  | some fe =>
    rcases fe with ⟨k, o, fty⟩
    cases bv with
    | none =>
      cases isk <;> simp [shapeFailureDiag]
    | some bv =>
      cases k <;> simp [shapeFailureDiag]

theorem verifyTypeDispatch_no_generic (t : ZType) (v : ZVal) (s : String) :
    (verifyTypeDispatch t v).2 ≠ [.no_match s] := by
  cases t with
  | arrayOf m e rc d =>
    cases v
    case varr ht =>
      rcases hv : zend_validate_array_of e ht with ⟨ok, b⟩
      cases ok <;> simp [verifyTypeDispatch, hv]
    all_goals simp [verifyTypeDispatch]
  | shape m els rc h =>
    cases v
    case varr ht =>
      by_cases hok : (zend_validate_array_shape els ht).ok = true <;>
        simp [verifyTypeDispatch, hok]
      exact shapeFailureDiag_not_generic _ _
        (validate_shape_failed_isSome els ht (by simpa using hok)) s
    all_goals simp [verifyTypeDispatch]
  | prim m =>
    by_cases hc : zend_check_type_extended (.prim m) v = true <;>
      simp [verifyTypeDispatch, hc]
  | cls m n =>
    by_cases hc : zend_check_type_extended (.cls m n) v = true <;>
      simp [verifyTypeDispatch, hc]
  | tlist m ts =>
    by_cases hc : zend_check_type_extended (.tlist m ts) v = true <;>
      simp [verifyTypeDispatch, hc]

theorem zend_verify_return_no_generic (t : ZType) (v : ZVal) (s : String) :
    (zend_verify_return_type_extended t v).2 ≠ [.no_match s] := by
  unfold zend_verify_return_type_extended
  split
  · cases v <;> simp
  · split
    · simp
    · exact verifyTypeDispatch_no_generic t v s

theorem verify_return_missing_top (m rc h : Nat) (pre post : List ShapeElem)
    (ht : List (AKey × ZVal)) (key : ShapeKey) (ty : ZType)
    (hv : m &&& MAY_BE_VOID = 0) (hn : m &&& MAY_BE_NEVER = 0)
    (hpre : pre.all (shapeElemOk ht) = true)
    (hfind : shapeElemKeyFind ht key = none) :
    zend_verify_return_type_extended
        (.shape m (pre ++ (key, false, ty) :: post) rc h) (.varr ht) =
      (false,
        [match key with
         | .sk s => Diag.missing_str_key s
         | .ik n => Diag.missing_int_key n]) := by
  unfold zend_verify_return_type_extended
  simp only [ZType.type_mask, hv, hn]
  simp only [verifyTypeDispatch, validate_shape_missing pre post ht key ty hpre hfind]
  cases key <;>
    simp [shapeFailureDiag, missingStrOf, missingNumOf, keyIsString]

theorem verify_return_wrong_typed (m rc h : Nat) (els : List ShapeElem)
    (ht : List (AKey × ZVal)) (bv : ZVal) (k : ShapeKey) (o : Bool) (fty : ZType)
    (hv : m &&& MAY_BE_VOID = 0) (hn : m &&& MAY_BE_NEVER = 0)
    (hok : (zend_validate_array_shape els ht).ok = false)
    (hb : (zend_validate_array_shape els ht).bad_value = some bv)
    (hf : (zend_validate_array_shape els ht).failed_element = some (k, o, fty)) :
    zend_verify_return_type_extended (.shape m els rc h) (.varr ht) =
      (false,
        [match k with
         | .sk s => Diag.wrong_type_str_key s (zend_type_to_string_extended fty)
             (zend_zval_type_name bv)
         | .ik n => Diag.wrong_type_int_key n (zend_type_to_string_extended fty)
             (zend_zval_type_name bv)]) := by
  unfold zend_verify_return_type_extended
  simp only [ZType.type_mask, hv, hn]
  simp only [verifyTypeDispatch, hok]
  cases k <;> simp [shapeFailureDiag, hok, hb, hf]

theorem verify_return_array_of_fail (m rc d : Nat) (et : ZType)
    (ht : List (AKey × ZVal)) (b : ZVal)
    (hv : m &&& MAY_BE_VOID = 0) (hn : m &&& MAY_BE_NEVER = 0)
    (hval : zend_validate_array_of et ht = (false, some b)) :
    zend_verify_return_type_extended (.arrayOf m et rc d) (.varr ht) =
      (false, [.array_of_element (zend_type_to_string_extended et)
        (zend_zval_type_name b)]) := by
  unfold zend_verify_return_type_extended
  simp only [ZType.type_mask, hv, hn]
  simp [verifyTypeDispatch, hval]

theorem verify_return_kind_mismatch (t : ZType) (v : ZVal)
    (hext : t.isExtendedArray = true) (harr : v.isArr = false)
    (hv : t.type_mask &&& MAY_BE_VOID = 0) (hn : t.type_mask &&& MAY_BE_NEVER = 0) :
    zend_verify_return_type_extended t v =
      (false, [.whole_type (zend_type_to_string_extended t)
        (zend_zval_type_name v)]) := by
  unfold zend_verify_return_type_extended
  simp only [hv, hn]
  cases t <;> simp [ZType.isExtendedArray] at hext <;>
    cases v <;> simp [ZVal.isArr] at harr <;> simp [verifyTypeDispatch]

theorem verify_arg_eq_return (t : ZType) (v : ZVal)
    (hv : t.type_mask &&& MAY_BE_VOID = 0) (hn : t.type_mask &&& MAY_BE_NEVER = 0) :
    zend_verify_arg_type_extended t v = zend_verify_return_type_extended t v := by
  unfold zend_verify_arg_type_extended zend_verify_return_type_extended
  simp [hv, hn]

theorem verifyTypeDispatch_pass_iff_check (t : ZType) (v : ZVal)
    (h : t.isExtendedArray = false) :
    (verifyTypeDispatch t v).1 = zend_check_type_extended t v := by
  cases t with
  | prim m =>
    by_cases hc : zend_check_type_extended (.prim m) v = true <;>
      simp_all [verifyTypeDispatch]
  | cls m n =>
    by_cases hc : zend_check_type_extended (.cls m n) v = true <;>
      simp_all [verifyTypeDispatch]
  | tlist m ts =>
    by_cases hc : zend_check_type_extended (.tlist m ts) v = true <;>
      simp_all [verifyTypeDispatch]
  | arrayOf m e rc d => simp [ZType.isExtendedArray] at h
  | shape m els rc hh => simp [ZType.isExtendedArray] at h

theorem verifyTypeDispatch_pass_arrayOf (m rc d : Nat) (e : ZType)
    (ht : List (AKey × ZVal)) :
    (verifyTypeDispatch (.arrayOf m e rc d) (.varr ht)).1 =
      (zend_validate_array_of e ht).1 := by
  rcases hv : zend_validate_array_of e ht with ⟨ok, b⟩
  cases ok <;> simp [verifyTypeDispatch, hv]

theorem verifyTypeDispatch_pass_shape (m rc h : Nat) (els : List ShapeElem)
    (ht : List (AKey × ZVal)) :
    (verifyTypeDispatch (.shape m els rc h) (.varr ht)).1 =
      (zend_validate_array_shape els ht).ok := by
  by_cases hok : (zend_validate_array_shape els ht).ok = true <;>
    simp_all [verifyTypeDispatch]

/-- The shape `array\x7ba: array\x7bb: int\x7d\x7d`. -/
def c4_type : ZType :=
  .shape (ZEND_TYPE_ARRAY_SHAPE_BIT ||| MAY_BE_ARRAY)
    [(.sk "a", false,
      .shape (ZEND_TYPE_ARRAY_SHAPE_BIT ||| MAY_BE_ARRAY)
        [(.sk "b", false, .prim MAY_BE_LONG)] 1 0)] 1 0

/-- Counterexample to claim C4 as stated: verifying
`array\x7ba: array\x7bb: int\x7d\x7d` against `["a" => []]` fails because the
required key `b` is missing from the nested shape, yet the raised diagnostic
is a wrong-typed-key diagnostic carrying the stringified type `int` — not the
key-identity-only missing-key diagnostic the claim prescribes for missing
required shape keys (the facade classifies the failure by `bad_value`, which
the nested-shape path fills with the containing sub-array). -/
theorem claim_C4_counterexample :
    zend_verify_return_type_extended c4_type (.varr [(.astr "a", .varr [])]) =
      (false, [.wrong_type_str_key "b" "int" "array"]) ∧
    (∀ k, Diag.wrong_type_str_key "b" "int" "array" ≠ Diag.missing_str_key k) ∧
    (∀ kn, Diag.wrong_type_str_key "b" "int" "array" ≠ Diag.missing_int_key kn) := by
  refine ⟨?_, fun k h => Diag.noConfusion h, fun kn h => Diag.noConfusion h⟩
  simp [c4_type, zend_verify_return_type_extended, verifyTypeDispatch,
    zend_validate_array_shape, shapeElemKeyFind, zend_hash_find, shapeFailureDiag,
    zend_type_to_string_extended, renderPlainMask, selectedKeywords, maskKeywords,
    zend_zval_type_name, derefOnce, ZEND_TYPE_PURE_MASK, ZType.type_mask,
    missingStrOf, missingNumOf, keyIsString, MAY_BE_VOID, MAY_BE_NEVER,
    MAY_BE_LONG, ZEND_TYPE_ARRAY_SHAPE_BIT, MAY_BE_ARRAY]
  decide

/-- Claim C4 amended: on failure exactly one structured type error is raised
(none on a pass), for both verification facades, which agree whenever the declared
type has no void/never bit; an outright kind mismatch reports the whole
declared type stringified plus the actual kind; a required key missing at the
top level of the declared shape reports the key identity alone with no
stringified type; a shape failure carrying a `bad_value` — a wrong-typed value
at a resolved key, and also a required key missing inside a nested shape,
which the facade classifies this way because the nested path fills
`bad_value` with the containing sub-array — reports the propagated failing
element's declared type stringified plus the `bad_value`'s kind; a failing
`array<T>` element reports the outer descriptor's declared element type
stringified plus the reported bad element's kind; the generic
does-not-match fallback diagnostic is unreachable; and a pass returns true,
with the non-extended path deciding by `zend_check_type_extended`. -/
theorem claim_C4_verification :
    (∀ t v, ((zend_verify_return_type_extended t v).2).length =
      (if (zend_verify_return_type_extended t v).1 then 0 else 1)) ∧
    (∀ t v, ((zend_verify_arg_type_extended t v).2).length =
      (if (zend_verify_arg_type_extended t v).1 then 0 else 1)) ∧
    (∀ t v, t.type_mask &&& MAY_BE_VOID = 0 → t.type_mask &&& MAY_BE_NEVER = 0 →
      zend_verify_arg_type_extended t v = zend_verify_return_type_extended t v) ∧
    (∀ t v, t.isExtendedArray = true → v.isArr = false →
      t.type_mask &&& MAY_BE_VOID = 0 → t.type_mask &&& MAY_BE_NEVER = 0 →
      zend_verify_return_type_extended t v =
        (false, [.whole_type (zend_type_to_string_extended t)
          (zend_zval_type_name v)])) ∧
    (∀ m rc h pre post ht key ty,
      m &&& MAY_BE_VOID = 0 → m &&& MAY_BE_NEVER = 0 →
      pre.all (shapeElemOk ht) = true → shapeElemKeyFind ht key = none →
      zend_verify_return_type_extended
          (.shape m (pre ++ (key, false, ty) :: post) rc h) (.varr ht) =
        (false,
          [match key with
           | .sk s => Diag.missing_str_key s
           | .ik n => Diag.missing_int_key n])) ∧
    (∀ m rc h els ht bv k o fty,
      m &&& MAY_BE_VOID = 0 → m &&& MAY_BE_NEVER = 0 →
      (zend_validate_array_shape els ht).ok = false →
      (zend_validate_array_shape els ht).bad_value = some bv →
      (zend_validate_array_shape els ht).failed_element = some (k, o, fty) →
      zend_verify_return_type_extended (.shape m els rc h) (.varr ht) =
        (false,
          [match k with
           | .sk s => Diag.wrong_type_str_key s (zend_type_to_string_extended fty)
               (zend_zval_type_name bv)
           | .ik n => Diag.wrong_type_int_key n (zend_type_to_string_extended fty)
               (zend_zval_type_name bv)])) ∧
    (∀ m rc d et ht b,
      m &&& MAY_BE_VOID = 0 → m &&& MAY_BE_NEVER = 0 →
      zend_validate_array_of et ht = (false, some b) →
      zend_verify_return_type_extended (.arrayOf m et rc d) (.varr ht) =
        (false, [.array_of_element (zend_type_to_string_extended et)
          (zend_zval_type_name b)])) ∧
    (∀ t v s, (zend_verify_return_type_extended t v).2 ≠ [.no_match s]) ∧
    (∀ t v, t.isExtendedArray = false →
      (zend_verify_arg_type_extended t v).1 = zend_check_type_extended t v) ∧
    (∀ m rc d e ht, (zend_verify_arg_type_extended (.arrayOf m e rc d) (.varr ht)).1 =
      (zend_validate_array_of e ht).1) ∧
    (∀ m rc h els ht, (zend_verify_arg_type_extended (.shape m els rc h) (.varr ht)).1 =
      (zend_validate_array_shape els ht).ok) := by
  refine ⟨zend_verify_return_len, ?_, verify_arg_eq_return, ?_, ?_, ?_, ?_,
    zend_verify_return_no_generic, ?_, ?_, ?_⟩
  · intro t v
    exact verifyTypeDispatch_len t v
  · intro t v hext harr hv hn
    exact verify_return_kind_mismatch t v hext harr hv hn
  · intro m rc h pre post ht key ty hv hn hpre hfind
    cases key with
    | sk s =>
      simpa using verify_return_missing_top m rc h pre post ht (.sk s) ty hv hn
        hpre hfind
    | ik k =>
      simpa using verify_return_missing_top m rc h pre post ht (.ik k) ty hv hn
        hpre hfind
  · intro m rc h els ht bv k o fty hv hn hok hb hf
    cases k with
    | sk s =>
      simpa using verify_return_wrong_typed m rc h els ht bv (.sk s) o fty hv hn
        hok hb hf
    | ik kn =>
      simpa using verify_return_wrong_typed m rc h els ht bv (.ik kn) o fty hv hn
        hok hb hf
  · intro m rc d et ht b hv hn hval
    exact verify_return_array_of_fail m rc d et ht b hv hn hval
  · intro t v h
    exact verifyTypeDispatch_pass_iff_check t v h
  · intro m rc d e ht
    exact verifyTypeDispatch_pass_arrayOf m rc d e ht
  · intro m rc h els ht
    exact verifyTypeDispatch_pass_shape m rc h els ht

/-- Witness for the amended C4: the top-level missing-key clause applied to
`array\x7bid: int, name: string\x7d` against `["id" => 1]`: the single raised
diagnostic is the key identity `name` alone. -/
theorem claim_C4_verification_witness :
    zend_verify_return_type_extended
        (.shape (ZEND_TYPE_ARRAY_SHAPE_BIT ||| MAY_BE_ARRAY)
          ([(.sk "id", false, .prim MAY_BE_LONG)] ++
            (.sk "name", false, .prim MAY_BE_STRING) :: []) 1 0)
        (.varr [(.astr "id", .vlong 1)]) =
      (false, [Diag.missing_str_key "name"]) :=
  claim_C4_verification.2.2.2.2.1 (ZEND_TYPE_ARRAY_SHAPE_BIT ||| MAY_BE_ARRAY) 1 0
    [(.sk "id", false, .prim MAY_BE_LONG)] [] [(.astr "id", .vlong 1)]
    (.sk "name") (.prim MAY_BE_STRING)
    (by decide) (by decide)
    (by simp [shapeElemOk, shapeElemKeyFind, zend_hash_find, elemTypeMatches,
      zend_check_type_extended, zend_check_primitive, derefOnce,
      ZEND_TYPE_PURE_MASK, MAY_BE_LONG])
    (by simp [shapeElemKeyFind, zend_hash_find])

end ArrayShapes
